import Mathlib

/-!
Task scheduler: FIFO queue, worker loop and outcome classification

A shallow embedding of `TaskScheduler.cpp` (with `TaskEvent.h`, `CancellationToken.h`,
`ITask.h`), of the cancellation paths of the concrete tasks (`Tasks.cpp`,
`SimpleTestTask.h`, `TestTask.h`) and of `StartScheduler` in `main.cpp`.

* Texts (`std::string`) are Lean strings; `find` is `std::string::find` from position 0,
  with `none` standing for `npos`.
* What a call of the virtual `ITask::Execute` does is not determined by the scheduler:
  it is an `ExecOutcome` (a returned text, a thrown `std::exception`, any other thrown
  value) chosen by the environment.
* The scheduler is a state machine. One step is one critical section or one externally
  visible action of a thread: the callers of `Start`, `Stop`, `ExecuteImmediately`,
  `CancelCurrent` and the worker thread interleave step by step.
* `Notify` is recorded as the sequence of events it was called with and the calls of
  observer handlers it made. A handler returns or throws; an observer object exists
  until its last owner lets go of it.
* The lines passed to the logger and written to `std::cout` are recorded, without the
  time stamp the log sink puts in front.
-/

namespace Project3

/-! ## Data model -/

/-- The four kinds of `TaskEvent.h`. -/
inductive TaskEventType
  | Started
  | Succeeded
  | Failed
  | Cancelled
  deriving DecidableEq, Repr

/-- The struct `TaskEvent` of `TaskEvent.h`. -/
structure TaskEvent where
  type : TaskEventType
  taskName : String
  message : String
  deriving DecidableEq, Repr

/-- The class of `CancellationToken.h`: one atomic flag, initially `false`. -/
structure CancellationToken where
  cancelled_ : Bool := false
  deriving DecidableEq, Repr

/-- The method `Cancel`: stores `true`. -/
def CancellationToken.Cancel (_t : CancellationToken) : CancellationToken :=
  { cancelled_ := true }

/-- The method `IsCancelled`: loads the flag. -/
def CancellationToken.IsCancelled (t : CancellationToken) : Bool :=
  t.cancelled_

/-- The method `Reset`: stores `false`. -/
def CancellationToken.Reset (_t : CancellationToken) : CancellationToken :=
  { cancelled_ := false }

/-- A task object behind a `std::shared_ptr<ITask>`: `addr` is the identity of the
object, `GetName` the text its `GetName()` returns. -/
structure ITask where
  addr : Nat
  GetName : String
  deriving DecidableEq, Repr

/-- What one call `task->Execute(token)` did, as seen by the `try` block of
`WorkerThread`. -/
inductive ExecOutcome
  /-- `Execute` returned this text. -/
  | returned (result : String)
  /-- `Execute` threw a `std::exception` whose `what()` is this text. -/
  | threwStd (what : String)
  /-- `Execute` threw a value that is not a `std::exception` (caught by `catch (...)`). -/
  | threwOther
  deriving DecidableEq, Repr

/-! ## Text search -/

/-- Search for `pat` in the rest `hay` of a text, the rest starting at index `pos`. -/
def findFrom (pat : List Char) : List Char → Nat → Option Nat
  | [], pos => if pat.isPrefixOf [] then some pos else none
  | c :: cs, pos =>
    if pat.isPrefixOf (c :: cs) then some pos else findFrom pat cs (pos + 1)

/-- The call `s.find(pat)` of `std::string`: the least index at which `pat` occurs in
`s`, and `none` for `npos`. -/
def find (s pat : String) : Option Nat :=
  findFrom pat.data s.data 0

/-! ## The body of the worker loop -/

/-- The `try`/`catch` block of `WorkerThread` (lines 199-248): the values of the locals
`result` and `taskCancelled` after it, given what `Execute` did and the token as it is
read by `token->IsCancelled()` in the branch taken. -/
def tryExecute (o : ExecOutcome) (token : CancellationToken) : String × Bool :=
  match o with
  | .returned r => if token.IsCancelled then (r, true) else (r, false)
  | .threwStd what => if token.IsCancelled then ("", true) else (what, false)
  | .threwOther => ("Unknown exception", false)

/-- The completion notification of `WorkerThread` (lines 250-262): the event passed to
`Notify` for the locals `result` and `taskCancelled`. -/
def completionEvent (name result : String) (taskCancelled : Bool) : TaskEvent :=
  if taskCancelled then
    ⟨.Cancelled, name, "Cancelled by user or TaskD"⟩
  else if !result.isEmpty && find result "cancelled" != none then
    ⟨.Cancelled, name, result⟩
  else if result.isEmpty || find result "error" != none || find result "Error" != none then
    ⟨.Failed, name, if result.isEmpty then "Unknown error" else result⟩
  else
    ⟨.Succeeded, name, result⟩

/-- The terminal event of one task: the `try`/`catch` block followed by the completion
notification. -/
def terminalEvent (name : String) (o : ExecOutcome) (token : CancellationToken) : TaskEvent :=
  completionEvent name (tryExecute o token).1 (tryExecute o token).2

/-- The two events of one loop iteration, in the order `Notify` is called with them. -/
def iterationEvents (task : ITask) (o : ExecOutcome) (token : CancellationToken) :
    List TaskEvent :=
  [⟨.Started, task.GetName, ""⟩, terminalEvent task.GetName o token]

/-! ## The scheduler as a state machine -/

/-- A log sink behind a `std::shared_ptr<LogWriter>`, known by the identity of the
object. -/
structure LogWriter where
  addr : Nat
  deriving DecidableEq, Repr

/-- An observer object behind a `std::weak_ptr<ITaskObserver>`: `addr` is the identity
of the object, and `OnTaskEventThrows e` tells whether its handler `OnTaskEvent(e)` is
left by an exception instead of returning. -/
structure ITaskObserver where
  addr : Nat
  OnTaskEventThrows : TaskEvent → Bool

/-- The text `Notify` prints for a kind (its two `switch` statements). -/
def TaskEventType.text : TaskEventType → String
  | .Started => "Started"
  | .Succeeded => "Succeeded"
  | .Failed => "Failed"
  | .Cancelled => "Cancelled"

/-- The loop `for (auto& obs : activeObservers) obs->OnTaskEvent(e)` of `Notify`: the
calls made, as pairs of observer and event in call order, and whether the loop was left
by an exception of a handler. Nothing catches such an exception. -/
def callObservers : List ITaskObserver → TaskEvent → List (Nat × TaskEvent) × Bool
  | [], _ => ([], false)
  | obs :: rest, e =>
    if obs.OnTaskEventThrows e then ([(obs.addr, e)], true)
    else ((obs.addr, e) :: (callObservers rest e).1, (callObservers rest e).2)

/-- The lines the `try`/`catch` block of `WorkerThread` writes after `Execute`: the line
for the logger and the line for `std::cout`. -/
def tryLog (name : String) (o : ExecOutcome) (token : CancellationToken) : String × String :=
  match o with
  | .returned r =>
    if token.IsCancelled then
      ("Task cancelled during execution: " ++ name, "Task cancelled: " ++ name)
    else
      ("Task succeeded: " ++ name ++ " Result: " ++ r,
        "Task succeeded: " ++ name ++ " Result: " ++ r)
  | .threwStd what =>
    if token.IsCancelled then
      ("Task cancelled (exception): " ++ name ++ " Error: " ++ what,
        "Task cancelled with exception: " ++ name ++ " - " ++ what)
    else
      ("Task failed: " ++ name ++ " Error: " ++ what, "Task failed: " ++ name ++ " - " ++ what)
  | .threwOther => ("Task unknown error: " ++ name, "Task unknown error: " ++ name)

/-- Where the worker thread stands in `WorkerThread`. When the process was ended by
`std::terminate`, the value only records how far the thread came. -/
inductive WorkerPc
  /-- The thread was created and has not yet written its first line (line 148). -/
  | entry
  /-- In `cv_.wait` at the head of the loop (line 161). -/
  | waiting
  /-- A task was popped under `mtx_`; the token is not yet created (line 189). -/
  | gotTask (task : ITask)
  /-- The token is created and published as `currentToken_` (line 196). -/
  | tokenSet (task : ITask) (token : Nat)
  /-- The event `Started` was notified; the thread is inside `Execute` (line 209). -/
  | executing (task : ITask) (token : Nat)
  /-- The `try`/`catch` block is left with these `result` and `taskCancelled` (line 250). -/
  | classified (task : ITask) (token : Nat) (result : String) (taskCancelled : Bool)
  /-- The completion event was notified; `currentToken_` is not yet reset (line 264). -/
  | notified (task : ITask) (token : Nat)
  /-- The loop was left by `break` (line 171); the last lines are not yet written. -/
  | leaving
  /-- The thread function has returned. -/
  | exited
  deriving DecidableEq, Repr

/-- The members of `TaskScheduler`, the threads acting on it, its surroundings and its
history.

Members: `taskQueue_`, `running_`, `worker_` (`none` when the `std::thread` is not
joinable, `some pc` when it owns a thread standing at `pc`), `logger_`, `observers_`
(the targets of the weak references, in registration order) and `currentToken_`.

Surroundings: tokens live in `heap`, in the order `make_shared` created them, and are
named by their index. `destroyed` holds the observer objects that no longer exist, so
that `lock()` on a weak reference fails exactly for them. `submitting` holds the tasks
of the callers of `ExecuteImmediately` that passed the `running_` check and did not push
yet. `joining` says that a caller of `Stop` is blocked in `worker_.join()`, and
`terminated` that `std::terminate` was called.

History: `emitted` is the sequence of events `Notify` was called with, `delivered` the
calls of `OnTaskEvent` made, `logged` the lines passed to `WriteLine` with the sink they
went to, `console` the lines written to `std::cout`, `accepted` and `dequeued` the tasks
pushed on and popped from `taskQueue_`. -/
structure TaskScheduler where
  taskQueue_ : List ITask := []
  running_ : Bool := false
  worker_ : Option WorkerPc := none
  logger_ : Option LogWriter := none
  observers_ : List ITaskObserver := []
  currentToken_ : Option Nat := none
  heap : List CancellationToken := []
  destroyed : List Nat := []
  submitting : List ITask := []
  joining : Bool := false
  terminated : Bool := false
  emitted : List TaskEvent := []
  delivered : List (Nat × TaskEvent) := []
  logged : List (LogWriter × String) := []
  console : List String := []
  accepted : List ITask := []
  dequeued : List ITask := []

namespace TaskScheduler

/-- The scheduler as constructed: `running_{ false }`, empty queue, no thread, no
logger, no observer, no current token. -/
def init : TaskScheduler := {}

/-- The statement `if (logger_) logger_->WriteLine(line)`. -/
def WriteLine (s : TaskScheduler) (line : String) : TaskScheduler :=
  { s with
    logged := match s.logger_ with
      | some w => s.logged ++ [(w, line)]
      | none => s.logged }

/-- The statement `std::cout << line << std::endl`. -/
def cout (s : TaskScheduler) (line : String) : TaskScheduler :=
  { s with console := s.console ++ [line] }

/-- The observers `Notify` finds alive when it locks the weak references (lines
127-139), in registration order. -/
def activeObservers (s : TaskScheduler) : List ITaskObserver :=
  s.observers_.filter fun obs => !s.destroyed.contains obs.addr

/-- Whether the call `Notify(e)` is left by an exception of a handler. -/
def NotifyThrows (s : TaskScheduler) (e : TaskEvent) : Bool :=
  (callObservers s.activeObservers e).2

/-- The call `Notify(e)`: a line to `std::cout`, a line to the logger, the dead
references erased from `observers_`, then the handlers of the live observers called in
turn, up to the first that throws. -/
def Notify (s : TaskScheduler) (e : TaskEvent) : TaskScheduler :=
  { (s.cout ("Notify: " ++ e.taskName ++ " - " ++ e.type.text
        ++ (if !e.message.isEmpty then " - " ++ e.message else ""))).WriteLine
      ("Notify: Task=" ++ e.taskName ++ " Event=" ++ e.type.text
        ++ (if !e.message.isEmpty then " Msg=" ++ e.message else "")) with
    observers_ := s.activeObservers
    emitted := s.emitted ++ [e]
    delivered := s.delivered ++ (callObservers s.activeObservers e).1 }

/-- The function `Start` (one critical section and the two lines after the thread is
created). Assigning a new thread to a `worker_` that is still joinable calls
`std::terminate`. -/
def Start (s : TaskScheduler) (logger : Option LogWriter) : TaskScheduler :=
  if s.running_ then s
  else if s.worker_.isSome then
    { s with logger_ := logger, running_ := true, terminated := true }
  else
    (({ s with logger_ := logger, running_ := true, worker_ := some .entry }).WriteLine
      "TaskScheduler started").cout "TaskScheduler started"

/-- The locked block of `Stop`: returns at once when not running, else clears
`running_`; the caller then goes on to `worker_.join()`. -/
def StopFlag (s : TaskScheduler) : TaskScheduler :=
  if !s.running_ then s
  else { s with running_ := false, joining := true }

/-- The return of `worker_.join()` in `Stop`, possible once the worker has exited, and
the two lines written after it. -/
def StopJoin (s : TaskScheduler) : TaskScheduler :=
  if s.joining && s.worker_ == some .exited then
    (({ s with worker_ := none, joining := false }).WriteLine
      "TaskScheduler stopped").cout "TaskScheduler stopped"
  else s

/-- The function `ExecuteImmediately` up to the push (lines 47-66): a null task and a
task submitted while `running_` is false are dropped with a line of diagnostics. -/
def ExecuteImmediatelyCheck (s : TaskScheduler) (task : Option ITask) : TaskScheduler :=
  match task with
  | none => s.WriteLine "ExecuteImmediately: null task provided"
  | some t =>
    if !s.running_ then
      (s.WriteLine ("ExecuteImmediately called but scheduler not running: " ++ t.GetName)).cout
        ("ExecuteImmediately: scheduler not running for " ++ t.GetName)
    else
      { (s.WriteLine ("ExecuteImmediately: " ++ t.GetName)).cout
          ("ExecuteImmediately: " ++ t.GetName) with
        submitting := s.submitting ++ [t] }

/-- The locked push of `ExecuteImmediately` (lines 68-71) by the caller standing at
index `i` of `submitting`. -/
def ExecuteImmediatelyPush (s : TaskScheduler) (i : Nat) : TaskScheduler :=
  match s.submitting.get? i with
  | none => s
  | some t =>
    { s with
      taskQueue_ := s.taskQueue_ ++ [t]
      submitting := s.submitting.eraseIdx i
      accepted := s.accepted ++ [t] }

/-- The function `CancelCurrent`: cancels the token `currentToken_` points to, if any,
and then writes its two lines. -/
def CancelCurrent (s : TaskScheduler) : TaskScheduler :=
  match s.currentToken_ with
  | none => s
  | some k =>
    (({ s with heap := s.heap.modify CancellationToken.Cancel k }).WriteLine
      "Cancelling current task").cout "Cancelling current task"

/-- The function `AddObserver`: appends the weak reference, no check for duplicates. -/
def AddObserver (s : TaskScheduler) (obs : ITaskObserver) : TaskScheduler :=
  (({ s with observers_ := s.observers_ ++ [obs] }).WriteLine "Observer added").cout
    "Observer added"

/-- The last owner of the observer object `addr` lets go of it: the object is destroyed.
This is a step of the surroundings, not a function of the scheduler. -/
def observerDestroyed (s : TaskScheduler) (addr : Nat) : TaskScheduler :=
  { s with destroyed := addr :: s.destroyed }

/-- One step of the worker thread other than the call of `Execute`. An exception that
leaves `Notify` is caught nowhere: it leaves the thread function, and `std::terminate`
is called. -/
def WorkerThread (s : TaskScheduler) : TaskScheduler :=
  match s.worker_ with
  | some .entry =>
    -- lines 148-151
    { (s.WriteLine "WorkerThread started").cout "WorkerThread started" with
      worker_ := some .waiting }
  | some .waiting =>
    -- lines 157-187: the wait returns when `!running_ || !taskQueue_.empty()`
    if !s.running_ then
      { (s.WriteLine "WorkerThread stopping (running_=false)").cout "WorkerThread stopping" with
        worker_ := some .leaving }
    else
      match s.taskQueue_ with
      | [] => s
      | task :: rest =>
        { (s.WriteLine ("WorkerThread got task: " ++ task.GetName)).cout
            ("WorkerThread got task: " ++ task.GetName) with
          taskQueue_ := rest
          worker_ := some (.gotTask task)
          dequeued := s.dequeued ++ [task] }
  | some .leaving =>
    -- lines 276-280
    { (s.WriteLine "WorkerThread ended").cout "WorkerThread ended" with
      worker_ := some .exited }
  | some (.gotTask task) =>
    -- lines 190-194
    { s with
      heap := s.heap ++ [{}]
      currentToken_ := some s.heap.length
      worker_ := some (.tokenSet task s.heap.length) }
  | some (.tokenSet task token) =>
    -- lines 197-206
    if s.NotifyThrows ⟨.Started, task.GetName, ""⟩ then
      { s.Notify ⟨.Started, task.GetName, ""⟩ with
        worker_ := some (.executing task token)
        terminated := true }
    else
      { ((s.Notify ⟨.Started, task.GetName, ""⟩).WriteLine
            ("Executing task: " ++ task.GetName)).cout ("Executing task: " ++ task.GetName) with
        worker_ := some (.executing task token) }
  | some (.classified task token result taskCancelled) =>
    -- lines 251-262
    if s.NotifyThrows (completionEvent task.GetName result taskCancelled) then
      { s.Notify (completionEvent task.GetName result taskCancelled) with
        worker_ := some (.notified task token)
        terminated := true }
    else
      { s.Notify (completionEvent task.GetName result taskCancelled) with
        worker_ := some (.notified task token) }
  | some (.notified task _) =>
    -- lines 265-273
    { ({ s with currentToken_ := none }.WriteLine ("Task completed: " ++ task.GetName)).cout
        ("Task completed: " ++ task.GetName) with
      worker_ := some .waiting }
  | _ => s

/-- The return of `Execute` inside the `try` block of the worker thread and the rest of
the block (lines 209-248), `Execute` doing `o`. -/
def WorkerExecute (s : TaskScheduler) (o : ExecOutcome) : TaskScheduler :=
  match s.worker_ with
  | some (.executing task token) =>
    let r := tryExecute o (s.heap.getD token {})
    let l := tryLog task.GetName o (s.heap.getD token {})
    { (s.WriteLine l.1).cout l.2 with worker_ := some (.classified task token r.1 r.2) }
  | _ => s

end TaskScheduler

/-- The steps the threads can take. -/
inductive Action
  | Start (logger : Option LogWriter)
  | StopFlag
  | StopJoin
  | Submit (task : Option ITask)
  | Push (i : Nat)
  | CancelCurrent
  | AddObserver (obs : ITaskObserver)
  | ObserverDestroyed (addr : Nat)
  | Worker
  | Execute (o : ExecOutcome)

/-- One step. After `std::terminate` nothing happens any more. -/
def step (s : TaskScheduler) (a : Action) : TaskScheduler :=
  if s.terminated then s
  else
    match a with
    | .Start logger => s.Start logger
    | .StopFlag => s.StopFlag
    | .StopJoin => s.StopJoin
    | .Submit task => s.ExecuteImmediatelyCheck task
    | .Push i => s.ExecuteImmediatelyPush i
    | .CancelCurrent => s.CancelCurrent
    | .AddObserver obs => s.AddObserver obs
    | .ObserverDestroyed addr => s.observerDestroyed addr
    | .Worker => s.WorkerThread
    | .Execute o => s.WorkerExecute o

/-- The state after a sequence of steps. -/
def run (s : TaskScheduler) (as : List Action) : TaskScheduler :=
  as.foldl step s

/-- The task names of the `Started` events of a trace, in order. -/
def startedNames (es : List TaskEvent) : List String :=
  (es.filter (fun e => e.type == .Started)).map TaskEvent.taskName

/-- The trace made of one adjacent pair per entry: `Started` with the task's name and an
empty message, then an event of the given kind and message with the same name. -/
def pairedTrace : List (ITask × TaskEventType × String) → List TaskEvent
  | [] => []
  | p :: ps =>
    ⟨.Started, p.1.GetName, ""⟩ :: ⟨p.2.1, p.1.GetName, p.2.2⟩ :: pairedTrace ps

/-- The task the worker has popped and not yet notified the completion of. -/
def WorkerPc.inFlight : WorkerPc → List ITask
  | .gotTask t => [t]
  | .tokenSet t _ => [t]
  | .executing t _ => [t]
  | .classified t _ _ _ => [t]
  | _ => []

/-- The `Started` event that is still waiting for its completion event. -/
def WorkerPc.openStarted : WorkerPc → List TaskEvent
  | .executing t _ => [⟨.Started, t.GetName, ""⟩]
  | .classified t _ _ _ => [⟨.Started, t.GetName, ""⟩]
  | _ => []

/-- The task the worker thread of `s` holds without having notified its completion. -/
def TaskScheduler.inFlight (s : TaskScheduler) : List ITask :=
  match s.worker_ with
  | some pc => pc.inFlight
  | none => []

/-- The `Started` event of `s` that is still waiting for its completion event. -/
def TaskScheduler.openStarted (s : TaskScheduler) : List TaskEvent :=
  match s.worker_ with
  | some pc => pc.openStarted
  | none => []

/-- A terminal kind: `Succeeded`, `Failed` or `Cancelled`. -/
def TaskEventType.isTerminal : TaskEventType → Bool
  | .Started => false
  | _ => true

/-- The loop invariant of the scheduler: every task pushed was popped or is still
queued, in push order; the events notified so far are one adjacent pair per task whose
completion was notified, followed by the `Started` of the task in execution, if any. -/
def Inv (s : TaskScheduler) : Prop :=
  s.accepted = s.dequeued ++ s.taskQueue_ ∧
  ∃ ps : List (ITask × TaskEventType × String),
    s.emitted = pairedTrace ps ++ s.openStarted ∧
    ps.map Prod.fst ++ s.inFlight = s.dequeued ∧
    ∀ p ∈ ps, p.2.1.isTerminal = true

/-- The token the worker thread holds in its local `token`. -/
def WorkerPc.tokenOf : WorkerPc → Option Nat
  | .tokenSet _ k => some k
  | .executing _ k => some k
  | .classified _ k _ _ => some k
  | .notified _ k => some k
  | _ => none

/-- The token held by the worker thread of `s`, if it holds one. -/
def TaskScheduler.workerToken (s : TaskScheduler) : Option Nat :=
  match s.worker_ with
  | some pc => pc.tokenOf
  | none => none

/-- The event the next step of the worker thread passes to `Notify`, if that step is a
notification. -/
def TaskScheduler.pendingEvent (s : TaskScheduler) : Option TaskEvent :=
  match s.worker_ with
  | some (.tokenSet task _) => some ⟨.Started, task.GetName, ""⟩
  | some (.classified task _ result taskCancelled) =>
    some (completionEvent task.GetName result taskCancelled)
  | _ => none

/-- Whether a step is a call of `Start`. -/
def Action.isStart : Action → Bool
  | .Start _ => true
  | _ => false

/-- The token invariant: `currentToken_` is the token the worker thread holds, and that
token is the one created last. -/
def TokInv (s : TaskScheduler) : Prop :=
  s.currentToken_ = s.workerToken ∧ ∀ k, s.currentToken_ = some k → k + 1 = s.heap.length

/-! ## The concrete tasks (`Tasks.cpp`, `SimpleTestTask.h`, `TestTask.h`)

The token a task polls is changed by other threads while the task runs, so what each
call of `token->IsCancelled()` reads is given from outside, as a function of the place
of the poll. What the part of a task behind its polls produces (file and network
results, elapsed time, formatted numbers) is a parameter as well. -/

/-- The loop `for (int i = start; i < start + n; ++i) if (poll i) return i`: the first
index at which the poll reads cancelled, if any. -/
def firstCancelled (poll : Nat → Bool) : Nat → Nat → Option Nat
  | 0, _ => none
  | n + 1, i => if poll i then some i else firstCancelled poll n (i + 1)

/-- The function `FileBackupTask::Execute`: five polls, then the backup file is written;
`io` is the path of the file written, or the description of the exception caught. -/
def FileBackupTask.Execute (poll : Nat → Bool) (io : Except String String) : String :=
  match firstCancelled poll 5 0 with
  | some i => "Backup cancelled at step " ++ toString i
  | none =>
    match io with
    | .ok path => "Backup created: " ++ path
    | .error what => "Backup error: " ++ what

/-- The places where `MatrixMultiplyTask::Execute` polls the token. -/
inductive MatrixPoll
  /-- In the loop that fills the matrices, at index `i`. -/
  | init (i : Nat)
  /-- At the head of row `i` of the product. -/
  | rowHead (i : Nat)
  /-- Behind row `i` of the product, for the rows with `i % 10 == 0`. -/
  | rowEnd (i : Nat)

/-- The row loop of `MatrixMultiplyTask::Execute`, from row `i` for `n` rows; `done` is
the text returned when the product is complete. -/
def MatrixMultiplyTask.rows (poll : MatrixPoll → Bool) (done : String) : Nat → Nat → String
  | 0, _ => done
  | n + 1, i =>
    if poll (.rowHead i) then "Matrix calculation cancelled"
    else if i % 10 == 0 && poll (.rowEnd i) then
      "Matrix calculation cancelled at row " ++ toString i
    else MatrixMultiplyTask.rows poll done n (i + 1)

/-- The function `MatrixMultiplyTask::Execute` with `N = 100`. -/
def MatrixMultiplyTask.Execute (poll : MatrixPoll → Bool) (done : String) : String :=
  match firstCancelled (fun i => poll (.init i)) (100 * 100) 0 with
  | some _ => "Matrix calculation cancelled"
  | none => MatrixMultiplyTask.rows poll done 100 0

/-- The function `HttpGetZenTask::Execute`: three polls, then the quote is written to
`outFile`; `io` is the quote, or the description of the exception caught. -/
def HttpGetZenTask.Execute (outFile : String) (poll : Nat → Bool)
    (io : Except String String) : String :=
  match firstCancelled poll 3 0 with
  | some _ => "HTTP request cancelled"
  | none =>
    match io with
    | .ok zenQuote => "Zen quote saved to " ++ outFile ++ ": " ++ zenQuote
    | .error what => "HTTP error: " ++ what

/-- The places where `RandomStatsTask::Execute` polls the token. -/
inductive RandomStatsPoll
  /-- At the head of iteration `i` of the loop that draws the numbers. -/
  | drawHead (i : Nat)
  /-- Behind iteration `i` of that loop, for the iterations with `i % 100 == 0`. -/
  | drawEnd (i : Nat)
  /-- In the loop that sums the squared differences, at index `i`. -/
  | variance (i : Nat)

/-- The loop of `RandomStatsTask::Execute` that draws the numbers, from iteration `i` for
`n` iterations: the text returned from inside the loop, if any. -/
def RandomStatsTask.draw (poll : RandomStatsPoll → Bool) : Nat → Nat → Option String
  | 0, _ => none
  | n + 1, i =>
    if poll (.drawHead i) then some "Random stats calculation cancelled"
    else if i % 100 == 0 && poll (.drawEnd i) then
      some ("Random stats calculation cancelled at iteration " ++ toString i)
    else RandomStatsTask.draw poll n (i + 1)

/-- The function `RandomStatsTask::Execute` with `N = 500`; `done` is the text returned
when the statistics are complete. -/
def RandomStatsTask.Execute (poll : RandomStatsPoll → Bool) (done : String) : String :=
  match RandomStatsTask.draw poll 500 0 with
  | some text => text
  | none =>
    match firstCancelled (fun i => poll (.variance i)) 500 0 with
    | some _ => "Random stats calculation cancelled"
    | none => done

/-- The function `SimpleTestTask::Execute` of `SimpleTestTask.h`: five polls; `ms` is
the elapsed time. -/
def SimpleTestTask.Execute (name_ : String) (poll : Nat → Bool) (ms : Nat) : String :=
  match firstCancelled poll 5 0 with
  | some i => "Cancelled at step " ++ toString i
  | none => "Completed in " ++ toString ms ++ "ms - " ++ name_

/-- The function `TestTask::Execute` of `TestTask.h`: ten polls; `ms` is the elapsed
time. -/
def TestTask.Execute (poll : Nat → Bool) (ms : Nat) : String :=
  match firstCancelled poll 10 0 with
  | some i => "Cancelled at step " ++ toString i
  | none => "Completed in " ++ toString ms ++ "ms"

/-! ## The front end (`main.cpp`) -/

/-- The handler `WinUiObserver::OnTaskEvent` posts a message to the window and returns:
the observer object at `addr` with a handler that does not throw. -/
def WinUiObserver (addr : Nat) : ITaskObserver :=
  ⟨addr, fun _ => false⟩

/-- The function `StartScheduler` of `main.cpp`, for the flag `g_schedulerRunning`, the
log sink it creates and the address of the observer it creates: the new value of the
flag and the scheduler. The observer is owned by the local `uiObs` alone, the scheduler
holding a weak reference, so it is destroyed when the function returns. The lines for
the list box and the directories created are left out. -/
def StartScheduler (g_schedulerRunning : Bool) (logger : LogWriter) (uiObs : Nat)
    (s : TaskScheduler) : Bool × TaskScheduler :=
  if g_schedulerRunning then (true, s.cout "Scheduler already running")
  else
    (true,
      ((run s [.AddObserver (WinUiObserver uiObs), .Start (some logger)]).cout
        "Scheduler started successfully").observerDestroyed uiObs)

/-! ## Text search: `find` against the occurrence of a substring -/

/-- The search finds something exactly when the pattern occurs as a contiguous block. -/
theorem findFrom_isSome (pat hay : List Char) (pos : Nat) :
    (findFrom pat hay pos).isSome = true ↔ pat <:+: hay := by
  induction hay generalizing pos with
  | nil =>
    cases pat <;> simp [findFrom]
  | cons c cs ih =>
    unfold findFrom
    by_cases h : pat.isPrefixOf (c :: cs) = true
    · simp only [h, if_true, Option.isSome_some, true_iff]
      exact (List.isPrefixOf_iff_prefix.mp h).isInfix
    · simp only [h, if_false, Bool.false_eq_true]
      rw [ih, List.infix_cons_iff]
      constructor
      · exact Or.inr
      · rintro (hp | hi)
        · exact absurd (List.isPrefixOf_iff_prefix.mpr hp) h
        · exact hi

/-- The test `s.find(pat) != npos` holds exactly when `pat` is a substring of `s`. -/
theorem find_ne_none_iff (s pat : String) :
    (find s pat != none) = true ↔ pat.data <:+: s.data := by
  rw [← findFrom_isSome pat.data s.data 0]
  unfold find
  cases findFrom pat.data s.data 0 <;> simp

/-- The test `s.find(pat) != npos` fails exactly when `pat` is no substring of `s`. -/
theorem find_ne_none_eq_false_iff (s pat : String) :
    (find s pat != none) = false ↔ ¬ pat.data <:+: s.data := by
  rw [← find_ne_none_iff]; simp

/-- A text with a non-empty substring is not empty. -/
theorem isEmpty_false_of_infix (s pat : String) (hp : pat ≠ "")
    (h : pat.data <:+: s.data) : s.isEmpty = false := by
  rw [Bool.eq_false_iff]
  intro he
  rw [String.isEmpty_iff] at he
  subst he
  simp at h
  exact hp (String.ext h)

/-- A text is empty for `std::string::empty` exactly when it is the empty text. -/
theorem isEmpty_eq_false_iff (s : String) : s.isEmpty = false ↔ s ≠ "" := by
  rw [Bool.eq_false_iff, ne_eq, String.isEmpty_iff]

/-! ## Outcome classification -/

/-- C3, at a failing input: `Execute` throws a `std::exception` whose description is
"disk full" while the token is not cancelled. The worker stores the description in
`result` and then classifies it by its text: no marker occurs in it, and the completion
event is `Succeeded`, not `Failed`. -/
theorem exception_without_marker_is_succeeded :
    terminalEvent "Backup" (.threwStd "disk full") { cancelled_ := false }
      = ⟨.Succeeded, "Backup", "disk full"⟩ := by
  decide

/-- C4, at a failing input: `Execute` throws a value that is not a `std::exception`
while the token is cancelled. The handler `catch (...)` does not read the token, and the
completion event is `Succeeded` with the text "Unknown exception", not `Cancelled`. -/
theorem unknown_exception_ignores_cancelled_token :
    terminalEvent "Backup" .threwOther { cancelled_ := true }
      = ⟨.Succeeded, "Backup", "Unknown exception"⟩ := by
  decide

/-- C5 fails as stated: with a token that is not cancelled, the text
"Cancelled at step 2" is not classified as `Cancelled` but as `Succeeded`. -/
theorem cancelled_at_step_not_cancelled_token :
    (terminalEvent "Test: X" (.returned "Cancelled at step 2") { cancelled_ := false }).type
        ≠ .Cancelled
      ∧ terminalEvent "Test: X" (.returned "Cancelled at step 2") { cancelled_ := false }
        = ⟨.Succeeded, "Test: X", "Cancelled at step 2"⟩ := by
  decide

/-- C5, amended: for a task that returns "Cancelled at step 2", the completion event is
`Cancelled` when the token reads cancelled; when it does not, the case-sensitive marker
"cancelled" does not occur in the text and the event is `Succeeded` with that text. -/
theorem cancelled_at_step_by_token (name : String) (token : CancellationToken) :
    terminalEvent name (.returned "Cancelled at step 2") token
      = if token.IsCancelled then ⟨.Cancelled, name, "Cancelled by user or TaskD"⟩
        else ⟨.Succeeded, name, "Cancelled at step 2"⟩ := by
  have h1 : (find "Cancelled at step 2" "cancelled" != none) = false := by decide
  have h2 : (find "Cancelled at step 2" "error" != none) = false := by decide
  have h3 : (find "Cancelled at step 2" "Error" != none) = false := by decide
  have h4 : ("Cancelled at step 2" : String).isEmpty = false := by decide
  cases h : token.IsCancelled <;>
    simp [terminalEvent, tryExecute, completionEvent, h, h1, h2, h3, h4]

/-- C6: when `Execute` returns normally and the token reads cancelled, the completion
event is `Cancelled`, whatever text was returned. -/
theorem cancelled_token_overrides_text (name text : String) (token : CancellationToken)
    (htok : token.IsCancelled = true) :
    (terminalEvent name (.returned text) token).type = .Cancelled := by
  simp [terminalEvent, tryExecute, completionEvent, htok]

/-- C6 at a success text, the empty text and a text with an error marker. -/
theorem cancelled_token_overrides_text_witness :
    ({ cancelled_ := true } : CancellationToken).IsCancelled = true
      ∧ (terminalEvent "T" (.returned "Completed in 42ms - X") { cancelled_ := true }).type
          = .Cancelled
      ∧ (terminalEvent "T" (.returned "") { cancelled_ := true }).type = .Cancelled
      ∧ (terminalEvent "T" (.returned "Backup error: denied") { cancelled_ := true }).type
          = .Cancelled :=
  ⟨rfl, cancelled_token_overrides_text _ _ _ rfl, cancelled_token_overrides_text _ _ _ rfl,
    cancelled_token_overrides_text _ _ _ rfl⟩

/-- C7 fails as stated: a task returns "Completed in 42ms - X", another throws a
`std::exception` described as "disk full", both with a cancelled token. The completion
events are `Cancelled`, and their messages are not the returned text and not the
description. -/
theorem cancelled_message_is_not_the_output :
    (terminalEvent "T" (.returned "Completed in 42ms - X") { cancelled_ := true }).type
        = .Cancelled
      ∧ (terminalEvent "T" (.returned "Completed in 42ms - X") { cancelled_ := true }).message
        ≠ "Completed in 42ms - X"
      ∧ (terminalEvent "T" (.threwStd "disk full") { cancelled_ := true }).type = .Cancelled
      ∧ (terminalEvent "T" (.threwStd "disk full") { cancelled_ := true }).message
        ≠ "disk full" := by
  decide

/-- C7, amended: when the token reads cancelled and `Execute` returned a text or threw a
`std::exception`, the completion event is `Cancelled` with the fixed message
"Cancelled by user or TaskD", whatever the text or the description. -/
theorem cancelled_message_is_fixed (name text : String) (token : CancellationToken)
    (htok : token.IsCancelled = true) :
    terminalEvent name (.returned text) token
        = ⟨.Cancelled, name, "Cancelled by user or TaskD"⟩
      ∧ terminalEvent name (.threwStd text) token
        = ⟨.Cancelled, name, "Cancelled by user or TaskD"⟩ := by
  simp [terminalEvent, tryExecute, completionEvent, htok]

/-- C7, amended, at the text "Completed in 42ms - X". -/
theorem cancelled_message_is_fixed_witness :
    ({ cancelled_ := true } : CancellationToken).IsCancelled = true
      ∧ terminalEvent "T" (.returned "Completed in 42ms - X") { cancelled_ := true }
        = ⟨.Cancelled, "T", "Cancelled by user or TaskD"⟩
      ∧ terminalEvent "T" (.threwStd "Completed in 42ms - X") { cancelled_ := true }
        = ⟨.Cancelled, "T", "Cancelled by user or TaskD"⟩ :=
  ⟨rfl, cancelled_message_is_fixed "T" "Completed in 42ms - X" { cancelled_ := true } rfl⟩

/-- C8, at a failing input: `Execute` throws a value that is not a `std::exception`
while the token is not cancelled. The worker sets `result` to "Unknown exception", in
which no error marker occurs, and the completion event is `Succeeded`, not `Failed`. -/
theorem unknown_exception_is_succeeded :
    terminalEvent "Backup" .threwOther { cancelled_ := false }
      = ⟨.Succeeded, "Backup", "Unknown exception"⟩ := by
  decide

/-- C9: when `Execute` returns normally, the token is not cancelled and the returned
text contains "cancelled", the completion event is `Cancelled` with the text as message,
also when the text contains "error" or "Error". -/
theorem cancelled_marker_first (name text : String) (token : CancellationToken)
    (htok : token.IsCancelled = false) (h : "cancelled".data <:+: text.data) :
    terminalEvent name (.returned text) token = ⟨.Cancelled, name, text⟩ := by
  have he := isEmpty_false_of_infix text "cancelled" (by decide) h
  have hf := (find_ne_none_iff text "cancelled").mpr h
  simp [terminalEvent, tryExecute, completionEvent, htok, he, hf]

/-- C9 at a text that contains both "cancelled" and "Error". -/
theorem cancelled_marker_first_witness :
    ({ cancelled_ := false } : CancellationToken).IsCancelled = false
      ∧ "cancelled".data <:+: "Error: job cancelled".data
      ∧ "Error".data <:+: "Error: job cancelled".data
      ∧ terminalEvent "T" (.returned "Error: job cancelled") { cancelled_ := false }
        = ⟨.Cancelled, "T", "Error: job cancelled"⟩ :=
  ⟨rfl, (find_ne_none_iff _ _).mp (by decide), (find_ne_none_iff _ _).mp (by decide),
    cancelled_marker_first "T" "Error: job cancelled" { cancelled_ := false } rfl
      ((find_ne_none_iff _ _).mp (by decide))⟩

/-- C10: when `Execute` returns normally, the token is not cancelled and the returned
text does not contain "cancelled": if the text is empty or contains "error" or "Error",
the completion event is `Failed`, with message "Unknown error" for the empty text and
the returned text otherwise. -/
theorem error_marker_is_failed (name text : String) (token : CancellationToken)
    (htok : token.IsCancelled = false) (hc : ¬ "cancelled".data <:+: text.data)
    (h : text = "" ∨ "error".data <:+: text.data ∨ "Error".data <:+: text.data) :
    terminalEvent name (.returned text) token
      = ⟨.Failed, name, if text = "" then "Unknown error" else text⟩ := by
  have hf := (find_ne_none_eq_false_iff text "cancelled").mpr hc
  rcases h with h | h | h
  · subst h
    have he : ("" : String).isEmpty = true := by decide
    simp [terminalEvent, tryExecute, completionEvent, htok, he]
  · have he := isEmpty_false_of_infix text "error" (by decide) h
    have hne := (isEmpty_eq_false_iff text).mp he
    have hm := (find_ne_none_iff text "error").mpr h
    simp [terminalEvent, tryExecute, completionEvent, htok, he, hf, hm, hne]
  · have he := isEmpty_false_of_infix text "Error" (by decide) h
    have hne := (isEmpty_eq_false_iff text).mp he
    have hm := (find_ne_none_iff text "Error").mpr h
    simp [terminalEvent, tryExecute, completionEvent, htok, he, hf, hm, hne]

/-- C10 at the empty text and at "Backup error-handling test passed". -/
theorem error_marker_is_failed_witness :
    terminalEvent "T" (.returned "") { cancelled_ := false }
        = ⟨.Failed, "T", "Unknown error"⟩
      ∧ terminalEvent "T" (.returned "Backup error-handling test passed")
          { cancelled_ := false }
        = ⟨.Failed, "T", "Backup error-handling test passed"⟩ :=
  ⟨error_marker_is_failed "T" "" { cancelled_ := false } rfl
      ((find_ne_none_eq_false_iff _ _).mp (by decide)) (Or.inl rfl),
    error_marker_is_failed "T" "Backup error-handling test passed" { cancelled_ := false } rfl
      ((find_ne_none_eq_false_iff _ _).mp (by decide))
      (Or.inr (Or.inl ((find_ne_none_iff _ _).mp (by decide))))⟩

/-! ## The worker loop: order of execution and shape of the event trace -/

/-- The completion event carries the name it was built for. -/
theorem completionEvent_taskName (name result : String) (c : Bool) :
    (completionEvent name result c).taskName = name := by
  unfold completionEvent
  split_ifs <;> rfl

/-- The completion event is never `Started`. -/
theorem completionEvent_isTerminal (name result : String) (c : Bool) :
    (completionEvent name result c).type.isTerminal = true := by
  unfold completionEvent
  split_ifs <;> rfl

/-- Appending one pair to a paired trace. -/
theorem pairedTrace_append (ps : List (ITask × TaskEventType × String))
    (p : ITask × TaskEventType × String) :
    pairedTrace (ps ++ [p])
      = pairedTrace ps ++ [⟨.Started, p.1.GetName, ""⟩, ⟨p.2.1, p.1.GetName, p.2.2⟩] := by
  induction ps with
  | nil => rfl
  | cons q qs ih => simp [pairedTrace, ih]

/-- The started names of a trace in two parts. -/
theorem startedNames_append (es fs : List TaskEvent) :
    startedNames (es ++ fs) = startedNames es ++ startedNames fs := by
  simp [startedNames]

/-- The started names of a paired trace are the names of its tasks, in order. -/
theorem startedNames_pairedTrace (ps : List (ITask × TaskEventType × String))
    (h : ∀ p ∈ ps, p.2.1.isTerminal = true) :
    startedNames (pairedTrace ps) = (ps.map Prod.fst).map ITask.GetName := by
  induction ps with
  | nil => rfl
  | cons q qs ih =>
    have hq : q.2.1.isTerminal = true := h q (List.mem_cons_self _ _)
    have hqs : ∀ p ∈ qs, p.2.1.isTerminal = true :=
      fun p hp => h p (List.mem_cons_of_mem _ hp)
    have ih2 := ih hqs
    unfold startedNames at ih2 ⊢
    cases hk : q.2.1 <;> simp_all [pairedTrace, TaskEventType.isTerminal]

/-- The invariant holds in the initial state. -/
theorem inv_init : Inv TaskScheduler.init :=
  ⟨rfl, [], rfl, rfl, by simp⟩

/-- A step that leaves the queue, the worker, the events and the two history lists
alone keeps the invariant. -/
theorem inv_of_frame (s s' : TaskScheduler) (h : Inv s)
    (hq : s'.taskQueue_ = s.taskQueue_) (hw : s'.worker_ = s.worker_)
    (he : s'.emitted = s.emitted) (ha : s'.accepted = s.accepted)
    (hd : s'.dequeued = s.dequeued) : Inv s' := by
  unfold Inv TaskScheduler.openStarted TaskScheduler.inFlight at *
  rw [hq, hw, he, ha, hd]
  exact h

/-- A step that leaves the queue, the events and the two history lists alone and moves
the worker between places with the same task in flight and the same open `Started`
event keeps the invariant. -/
theorem inv_of_view (s s' : TaskScheduler) (h : Inv s)
    (hq : s'.taskQueue_ = s.taskQueue_) (ho : s'.openStarted = s.openStarted)
    (hi : s'.inFlight = s.inFlight) (he : s'.emitted = s.emitted)
    (ha : s'.accepted = s.accepted) (hd : s'.dequeued = s.dequeued) : Inv s' := by
  unfold Inv at *
  rw [hq, ho, hi, he, ha, hd]
  exact h

/-- The function `Start` keeps the invariant. -/
theorem inv_Start (s : TaskScheduler) (logger : Option LogWriter) (h : Inv s) :
    Inv (s.Start logger) := by
  unfold TaskScheduler.Start
  split_ifs with h1 h2
  · exact h
  · exact inv_of_frame s _ h rfl rfl rfl rfl rfl
  · have hw : s.worker_ = none := by
      cases hw : s.worker_ <;> simp_all
    refine inv_of_view s _ h rfl ?_ ?_ rfl rfl rfl
    · simp [TaskScheduler.openStarted, TaskScheduler.WriteLine, TaskScheduler.cout, hw,
        WorkerPc.openStarted]
    · simp [TaskScheduler.inFlight, TaskScheduler.WriteLine, TaskScheduler.cout, hw,
        WorkerPc.inFlight]

/-- The locked block of `Stop` keeps the invariant. -/
theorem inv_StopFlag (s : TaskScheduler) (h : Inv s) : Inv s.StopFlag := by
  unfold TaskScheduler.StopFlag
  split_ifs
  · exact h
  · exact inv_of_frame s _ h rfl rfl rfl rfl rfl

/-- The join of `Stop` keeps the invariant. -/
theorem inv_StopJoin (s : TaskScheduler) (h : Inv s) : Inv s.StopJoin := by
  unfold TaskScheduler.StopJoin
  split_ifs with h1
  · have hw : s.worker_ = some .exited := by
      simp only [Bool.and_eq_true, beq_iff_eq] at h1
      exact h1.2
    refine inv_of_view s _ h rfl ?_ ?_ rfl rfl rfl
    · simp [TaskScheduler.openStarted, TaskScheduler.WriteLine, TaskScheduler.cout, hw,
        WorkerPc.openStarted]
    · simp [TaskScheduler.inFlight, TaskScheduler.WriteLine, TaskScheduler.cout, hw,
        WorkerPc.inFlight]
  · exact h

/-- The check of `ExecuteImmediately` keeps the invariant. -/
theorem inv_ExecuteImmediatelyCheck (s : TaskScheduler) (task : Option ITask) (h : Inv s) :
    Inv (s.ExecuteImmediatelyCheck task) := by
  unfold TaskScheduler.ExecuteImmediatelyCheck
  cases task with
  | none => exact inv_of_frame s _ h rfl rfl rfl rfl rfl
  | some t =>
    dsimp only
    split_ifs
    · exact inv_of_frame s _ h rfl rfl rfl rfl rfl
    · exact inv_of_frame s _ h rfl rfl rfl rfl rfl

/-- The push of `ExecuteImmediately` keeps the invariant. -/
theorem inv_ExecuteImmediatelyPush (s : TaskScheduler) (i : Nat) (h : Inv s) :
    Inv (s.ExecuteImmediatelyPush i) := by
  unfold TaskScheduler.ExecuteImmediatelyPush
  cases s.submitting.get? i with
  | none => exact h
  | some t =>
    obtain ⟨h1, ps, h2, h3, h4⟩ := h
    refine ⟨?_, ps, h2, h3, h4⟩
    dsimp only
    rw [h1, List.append_assoc]

/-- The function `CancelCurrent` keeps the invariant. -/
theorem inv_CancelCurrent (s : TaskScheduler) (h : Inv s) : Inv s.CancelCurrent := by
  unfold TaskScheduler.CancelCurrent
  cases s.currentToken_ with
  | none => exact h
  | some k => exact inv_of_frame s _ h rfl rfl rfl rfl rfl

/-- The function `AddObserver` keeps the invariant. -/
theorem inv_AddObserver (s : TaskScheduler) (obs : ITaskObserver) (h : Inv s) :
    Inv (s.AddObserver obs) :=
  inv_of_frame s _ h rfl rfl rfl rfl rfl

/-- The destruction of an observer keeps the invariant. -/
theorem inv_observerDestroyed (s : TaskScheduler) (addr : Nat) (h : Inv s) :
    Inv (s.observerDestroyed addr) :=
  inv_of_frame s _ h rfl rfl rfl rfl rfl

/-- The return of `Execute` keeps the invariant. -/
theorem inv_WorkerExecute (s : TaskScheduler) (o : ExecOutcome) (h : Inv s) :
    Inv (s.WorkerExecute o) := by
  unfold TaskScheduler.WorkerExecute
  split
  · next task token hw =>
    refine inv_of_view s _ h rfl ?_ ?_ rfl rfl rfl
    · simp [TaskScheduler.openStarted, TaskScheduler.WriteLine, TaskScheduler.cout, hw,
        WorkerPc.openStarted]
    · simp [TaskScheduler.inFlight, TaskScheduler.WriteLine, TaskScheduler.cout, hw,
        WorkerPc.inFlight]
  · exact h

/-- An event with a given task name, written as a record. -/
theorem taskEvent_eq_of_taskName (e : TaskEvent) (n : String) (h : e.taskName = n) :
    e = ⟨e.type, n, e.message⟩ := by
  cases e
  simp only at h
  rw [h]

/-- A step of the worker thread keeps the invariant. -/
theorem inv_WorkerThread (s : TaskScheduler) (h : Inv s) : Inv s.WorkerThread := by
  unfold TaskScheduler.WorkerThread
  cases hw : s.worker_ with
  | none => exact h
  | some pc =>
    cases pc with
    | entry =>
      refine inv_of_view s _ h rfl ?_ ?_ rfl rfl rfl
      · simp [TaskScheduler.openStarted, hw, WorkerPc.openStarted]
      · simp [TaskScheduler.inFlight, hw, WorkerPc.inFlight]
    | waiting =>
      dsimp only
      split_ifs with hr
      · refine inv_of_view s _ h rfl ?_ ?_ rfl rfl rfl
        · simp [TaskScheduler.openStarted, hw, WorkerPc.openStarted]
        · simp [TaskScheduler.inFlight, hw, WorkerPc.inFlight]
      · cases hq : s.taskQueue_ with
        | nil => exact h
        | cons task rest =>
          obtain ⟨h1, ps, h2, h3, h4⟩ := h
          refine ⟨?_, ps, ?_, ?_, h4⟩
          · show s.accepted = (s.dequeued ++ [task]) ++ rest
            rw [h1, hq, List.append_assoc, List.singleton_append]
          · show s.emitted = pairedTrace ps ++ []
            simpa [TaskScheduler.openStarted, hw, WorkerPc.openStarted] using h2
          · show ps.map Prod.fst ++ [task] = s.dequeued ++ [task]
            have h3' : ps.map Prod.fst = s.dequeued := by
              simpa [TaskScheduler.inFlight, hw, WorkerPc.inFlight] using h3
            rw [h3']
    | gotTask task =>
      refine inv_of_view s _ h rfl ?_ ?_ rfl rfl rfl
      · simp [TaskScheduler.openStarted, hw, WorkerPc.openStarted]
      · simp [TaskScheduler.inFlight, hw, WorkerPc.inFlight]
    | tokenSet task token =>
      obtain ⟨h1, ps, h2, h3, h4⟩ := h
      have h2' : s.emitted = pairedTrace ps := by
        simpa [TaskScheduler.openStarted, hw, WorkerPc.openStarted] using h2
      have h3' : ps.map Prod.fst ++ [task] = s.dequeued := by
        simpa [TaskScheduler.inFlight, hw, WorkerPc.inFlight] using h3
      dsimp only
      split_ifs
      · refine ⟨h1, ps, ?_, h3', h4⟩
        show s.emitted ++ [_] = pairedTrace ps ++ [_]
        rw [h2']
      · refine ⟨h1, ps, ?_, h3', h4⟩
        show s.emitted ++ [_] = pairedTrace ps ++ [_]
        rw [h2']
    | executing task token => exact h
    | classified task token result taskCancelled =>
      obtain ⟨h1, ps, h2, h3, h4⟩ := h
      have h2' : s.emitted = pairedTrace ps ++ [⟨.Started, task.GetName, ""⟩] := by
        simpa [TaskScheduler.openStarted, hw, WorkerPc.openStarted] using h2
      have h3' : ps.map Prod.fst ++ [task] = s.dequeued := by
        simpa [TaskScheduler.inFlight, hw, WorkerPc.inFlight] using h3
      have hem : s.emitted ++ [completionEvent task.GetName result taskCancelled]
          = pairedTrace (ps ++ [(task, (completionEvent task.GetName result taskCancelled).type,
              (completionEvent task.GetName result taskCancelled).message)]) ++ [] := by
        rw [pairedTrace_append, h2', List.append_nil, List.append_assoc,
          List.singleton_append]
        exact congrArg _ (congrArg _ (congrArg (fun e => [e])
          (taskEvent_eq_of_taskName _ _ (completionEvent_taskName _ _ _))))
      have hdq : List.map Prod.fst (ps ++ [(task,
          (completionEvent task.GetName result taskCancelled).type,
          (completionEvent task.GetName result taskCancelled).message)]) ++ [] = s.dequeued := by
        rw [List.map_append, List.append_nil]
        exact h3'
      have hterm : ∀ p ∈ ps ++ [(task, (completionEvent task.GetName result taskCancelled).type,
          (completionEvent task.GetName result taskCancelled).message)],
          p.2.1.isTerminal = true := by
        intro p hp
        rcases List.mem_append.mp hp with hp | hp
        · exact h4 p hp
        · rw [List.mem_singleton] at hp
          subst hp
          exact completionEvent_isTerminal _ _ _
      dsimp only
      split_ifs
      · exact ⟨h1, _, hem, hdq, hterm⟩
      · exact ⟨h1, _, hem, hdq, hterm⟩
    | notified task token =>
      refine inv_of_view s _ h rfl ?_ ?_ rfl rfl rfl
      · simp [TaskScheduler.openStarted, hw, WorkerPc.openStarted]
      · simp [TaskScheduler.inFlight, hw, WorkerPc.inFlight]
    | leaving =>
      refine inv_of_view s _ h rfl ?_ ?_ rfl rfl rfl
      · simp [TaskScheduler.openStarted, hw, WorkerPc.openStarted]
      · simp [TaskScheduler.inFlight, hw, WorkerPc.inFlight]
    | exited => exact h

/-- Every step keeps the invariant. -/
theorem inv_step (s : TaskScheduler) (a : Action) (h : Inv s) : Inv (step s a) := by
  unfold step
  split_ifs
  · exact h
  · cases a with
    | Start logger => exact inv_Start s logger h
    | StopFlag => exact inv_StopFlag s h
    | StopJoin => exact inv_StopJoin s h
    | Submit task => exact inv_ExecuteImmediatelyCheck s task h
    | Push i => exact inv_ExecuteImmediatelyPush s i h
    | CancelCurrent => exact inv_CancelCurrent s h
    | AddObserver obs => exact inv_AddObserver s obs h
    | ObserverDestroyed addr => exact inv_observerDestroyed s addr h
    | Worker => exact inv_WorkerThread s h
    | Execute o => exact inv_WorkerExecute s o h

/-- The invariant holds after every sequence of steps from a state where it holds. -/
theorem inv_run (as : List Action) (s : TaskScheduler) (h : Inv s) : Inv (run s as) := by
  induction as generalizing s with
  | nil => exact h
  | cons a as ih => exact ih (step s a) (inv_step s a h)

/-- The open `Started` event names the task in flight, when there is one. -/
theorem openStarted_names_of_inFlight (s : TaskScheduler) :
    startedNames s.openStarted <+: s.inFlight.map ITask.GetName := by
  unfold TaskScheduler.openStarted TaskScheduler.inFlight
  cases s.worker_ with
  | none => exact List.prefix_refl _
  | some pc =>
    cases pc <;>
      simp [WorkerPc.openStarted, WorkerPc.inFlight, startedNames]

/-- C1: after every interleaving of `Start`, `Stop`, `ExecuteImmediately`,
`CancelCurrent` and worker steps, the tasks popped by the worker are a prefix of the
tasks pushed, in push order, and the task names of the `Started` events, in order of
notification, are a prefix of the names of the tasks pushed: no task is started out of
order, skipped or started twice. -/
theorem started_in_submission_order (as : List Action) :
    (run TaskScheduler.init as).dequeued <+: (run TaskScheduler.init as).accepted
      ∧ startedNames (run TaskScheduler.init as).emitted
          <+: (run TaskScheduler.init as).accepted.map ITask.GetName := by
  obtain ⟨h1, ps, h2, h3, h4⟩ := inv_run as TaskScheduler.init inv_init
  refine ⟨⟨_, h1.symm⟩, ?_⟩
  have hd : startedNames (run TaskScheduler.init as).emitted
      <+: (run TaskScheduler.init as).dequeued.map ITask.GetName := by
    rw [h2, ← h3, startedNames_append, startedNames_pairedTrace ps h4, List.map_append]
    exact (List.prefix_append_right_inj _).mpr (openStarted_names_of_inFlight _)
  refine hd.trans ?_
  rw [h1, List.map_append]
  exact List.prefix_append _ _

/-- A whole call of `ExecuteImmediately` by one thread on a running scheduler, the check
directly followed by the push of the same caller, appends the task to the queue and to
the accepted tasks. -/
theorem ExecuteImmediately_uninterrupted (s : TaskScheduler) (t : ITask)
    (hr : s.running_ = true) (ht : s.terminated = false) :
    (run s [.Submit (some t), .Push s.submitting.length]).taskQueue_ = s.taskQueue_ ++ [t]
      ∧ (run s [.Submit (some t), .Push s.submitting.length]).accepted
        = s.accepted ++ [t] := by
  simp [run, step, TaskScheduler.ExecuteImmediatelyCheck,
    TaskScheduler.ExecuteImmediatelyPush, TaskScheduler.WriteLine, TaskScheduler.cout, hr, ht]

/-- A run of the machine: two tasks are submitted and pushed, the worker executes the
first, which returns a text, and then the second, which throws a `std::exception`. -/
theorem run_two_tasks :
    (run TaskScheduler.init
      [.Start none, .Worker, .Submit (some ⟨1, "A"⟩), .Push 0, .Submit (some ⟨2, "B"⟩), .Push 0,
        .Worker, .Worker, .Worker, .Execute (.returned "Completed in 42ms - X"),
        .Worker, .Worker,
        .Worker, .Worker, .Worker, .Execute (.threwStd "HTTP error: timeout"),
        .Worker, .Worker]).emitted
      = [⟨.Started, "A", ""⟩, ⟨.Succeeded, "A", "Completed in 42ms - X"⟩,
          ⟨.Started, "B", ""⟩, ⟨.Failed, "B", "HTTP error: timeout"⟩] := by
  decide

/-! ## Outcome classification: the success case -/

/-- C11: when `Execute` returns normally, the token is not cancelled and the returned
text is not empty and contains none of "cancelled", "error", "Error", the completion
event is `Succeeded` and its message is the returned text itself. -/
theorem no_marker_is_succeeded (name text : String) (token : CancellationToken)
    (htok : token.IsCancelled = false) (hne : text ≠ "")
    (hc : ¬ "cancelled".data <:+: text.data) (he : ¬ "error".data <:+: text.data)
    (hE : ¬ "Error".data <:+: text.data) :
    terminalEvent name (.returned text) token = ⟨.Succeeded, name, text⟩ := by
  have h0 := (isEmpty_eq_false_iff text).mpr hne
  have h1 := (find_ne_none_eq_false_iff text "cancelled").mpr hc
  have h2 := (find_ne_none_eq_false_iff text "error").mpr he
  have h3 := (find_ne_none_eq_false_iff text "Error").mpr hE
  simp only [bne_eq_false_iff_eq] at h1 h2 h3
  simp [terminalEvent, tryExecute, completionEvent, htok, h0, h1, h2, h3]

/-- C11 at the text "Completed in 42ms - X". -/
theorem no_marker_is_succeeded_witness :
    terminalEvent "Test: X" (.returned "Completed in 42ms - X") { cancelled_ := false }
      = ⟨.Succeeded, "Test: X", "Completed in 42ms - X"⟩ :=
  no_marker_is_succeeded "Test: X" "Completed in 42ms - X" { cancelled_ := false } rfl
    (by decide) ((find_ne_none_eq_false_iff _ _).mp (by decide))
    ((find_ne_none_eq_false_iff _ _).mp (by decide))
    ((find_ne_none_eq_false_iff _ _).mp (by decide))

/-! ## The cancellation token -/

/-- C19: a fresh token reads not cancelled; after `n ≥ 1` calls of `Cancel` the token
reads cancelled and is the token after one call; `IsCancelled`, a `const` member, is a
function of the token that returns its flag and has no token to change. -/
theorem cancel_idempotent (t : CancellationToken) (n : Nat) (hn : 1 ≤ n) :
    ({} : CancellationToken).IsCancelled = false
      ∧ ((CancellationToken.Cancel^[n]) t).IsCancelled = true
      ∧ (CancellationToken.Cancel^[n]) t = t.Cancel
      ∧ t.IsCancelled = t.cancelled_ := by
  have h : (CancellationToken.Cancel^[n]) t = t.Cancel := by
    obtain ⟨m, rfl⟩ : ∃ m, n = m + 1 := ⟨n - 1, by omega⟩
    rw [Function.iterate_succ_apply']
    rfl
  refine ⟨rfl, ?_, h, rfl⟩
  rw [h]
  rfl

/-- C19 at three calls of `Cancel` on a fresh token. -/
theorem cancel_idempotent_witness :
    (1 ≤ 3)
      ∧ ((CancellationToken.Cancel^[3]) {}).IsCancelled = true
      ∧ (CancellationToken.Cancel^[3]) {} = CancellationToken.Cancel {} :=
  ⟨by decide, (cancel_idempotent {} 3 (by decide)).2.1, (cancel_idempotent {} 3 (by decide)).2.2.1⟩

/-! ## Calls that change nothing -/

/-- C20: `Start` on a scheduler whose `running_` is true returns the state as it is: the
logger recorded before stays and the one supplied is dropped, no thread is created, the
queue is as before. `Stop` on a scheduler whose `running_` is false returns from its
locked block with the state as it is, without going on to the join. -/
theorem start_stop_idempotent (s : TaskScheduler) (logger : Option LogWriter) :
    (s.running_ = true → s.Start logger = s ∧ step s (.Start logger) = s)
      ∧ (s.running_ = false → s.StopFlag = s ∧ step s .StopFlag = s) := by
  constructor
  · intro h
    have h1 : s.Start logger = s := by simp [TaskScheduler.Start, h]
    refine ⟨h1, ?_⟩
    unfold step
    split_ifs
    · rfl
    · exact h1
  · intro h
    have h1 : s.StopFlag = s := by simp [TaskScheduler.StopFlag, h]
    refine ⟨h1, ?_⟩
    unfold step
    split_ifs
    · rfl
    · exact h1

/-- C20 at a scheduler started with the log sink 1, on which `Start` is called with the
log sink 2, and at the scheduler as constructed, on which `Stop` is called. -/
theorem start_stop_idempotent_witness :
    (run TaskScheduler.init [.Start (some ⟨1⟩), .Worker]).running_ = true
      ∧ (run TaskScheduler.init [.Start (some ⟨1⟩), .Worker]).Start (some ⟨2⟩)
        = run TaskScheduler.init [.Start (some ⟨1⟩), .Worker]
      ∧ ((run TaskScheduler.init [.Start (some ⟨1⟩), .Worker]).Start (some ⟨2⟩)).logger_
        = some ⟨1⟩
      ∧ TaskScheduler.init.running_ = false
      ∧ TaskScheduler.init.StopFlag = TaskScheduler.init :=
  ⟨rfl,
    ((start_stop_idempotent (run TaskScheduler.init [.Start (some ⟨1⟩), .Worker])
      (some ⟨2⟩)).1 rfl).1,
    rfl, rfl, ((start_stop_idempotent TaskScheduler.init none).2 rfl).1⟩

/-- C12: `ExecuteImmediately` called with a null task, or when `running_` reads false,
returns after its check. Apart from the lines of diagnostics, the state is as before:
the queue, `running_`, the worker, the events notified and the calls of observers are
unchanged, the caller does not go on to the push, and nothing is thrown. -/
theorem ExecuteImmediately_rejected (s : TaskScheduler) (task : Option ITask)
    (h : task = none ∨ s.running_ = false) :
    ∃ lines cons,
      s.ExecuteImmediatelyCheck task
        = { s with logged := s.logged ++ lines, console := s.console ++ cons } := by
  rcases h with h | h
  · subst h
    cases hl : s.logger_ with
    | none => exact ⟨[], [], by simp [TaskScheduler.ExecuteImmediatelyCheck,
        TaskScheduler.WriteLine, hl]⟩
    | some w => exact ⟨[(w, "ExecuteImmediately: null task provided")], [], by
        simp [TaskScheduler.ExecuteImmediatelyCheck, TaskScheduler.WriteLine, hl]⟩
  · cases task with
    | none =>
      cases hl : s.logger_ with
      | none => exact ⟨[], [], by simp [TaskScheduler.ExecuteImmediatelyCheck,
          TaskScheduler.WriteLine, hl]⟩
      | some w => exact ⟨[(w, "ExecuteImmediately: null task provided")], [], by
          simp [TaskScheduler.ExecuteImmediatelyCheck, TaskScheduler.WriteLine, hl]⟩
    | some t =>
      cases hl : s.logger_ with
      | none => exact ⟨[], ["ExecuteImmediately: scheduler not running for " ++ t.GetName],
          by simp [TaskScheduler.ExecuteImmediatelyCheck, TaskScheduler.WriteLine,
            TaskScheduler.cout, hl, h]⟩
      | some w =>
        exact ⟨[(w, "ExecuteImmediately called but scheduler not running: " ++ t.GetName)],
          ["ExecuteImmediately: scheduler not running for " ++ t.GetName],
          by simp [TaskScheduler.ExecuteImmediatelyCheck, TaskScheduler.WriteLine,
            TaskScheduler.cout, hl, h]⟩

/-- C12 at a null task on a running scheduler and at a task on the scheduler as
constructed: the queue, `running_`, the worker and the events are as before. -/
theorem ExecuteImmediately_rejected_witness :
    (∃ lines cons,
      (run TaskScheduler.init [.Start none, .Worker]).ExecuteImmediatelyCheck none
        = { run TaskScheduler.init [.Start none, .Worker] with
            logged := (run TaskScheduler.init [.Start none, .Worker]).logged ++ lines
            console := (run TaskScheduler.init [.Start none, .Worker]).console ++ cons })
      ∧ TaskScheduler.init.running_ = false
      ∧ (∃ lines cons,
        TaskScheduler.init.ExecuteImmediatelyCheck (some ⟨1, "A"⟩)
          = { TaskScheduler.init with
              logged := TaskScheduler.init.logged ++ lines
              console := TaskScheduler.init.console ++ cons }) :=
  ⟨ExecuteImmediately_rejected _ none (Or.inl rfl), rfl,
    ExecuteImmediately_rejected TaskScheduler.init (some ⟨1, "A"⟩) (Or.inr rfl)⟩

/-- C17: when `currentToken_` is empty, `CancelCurrent` returns the state as it is: no
token flag is set, no event is notified, no line is written, the queue is untouched.
Every later run is therefore the run without the call, and when the worker later creates
the token for a task it popped from the queue, that token is a new one that reads not
cancelled. -/
theorem CancelCurrent_without_token (s : TaskScheduler) (h : s.currentToken_ = none) :
    s.CancelCurrent = s
      ∧ (∀ as : List Action, run s (.CancelCurrent :: as) = run s as)
      ∧ ∀ (as : List Action) (t : ITask),
          (run s (.CancelCurrent :: as)).worker_ = some (.gotTask t) →
          (run s (.CancelCurrent :: as)).WorkerThread.currentToken_
              = some (run s (.CancelCurrent :: as)).heap.length
            ∧ (run s (.CancelCurrent :: as)).WorkerThread.heap
              = (run s (.CancelCurrent :: as)).heap ++ [{ cancelled_ := false }] := by
  have h1 : s.CancelCurrent = s := by simp [TaskScheduler.CancelCurrent, h]
  refine ⟨h1, fun as => ?_, fun as t ht => ?_⟩
  · have h2 : step s .CancelCurrent = s := by
      unfold step
      split_ifs
      · rfl
      · exact h1
    simp [run, h2]
  · simp [TaskScheduler.WorkerThread, ht]

/-- C17 at a running scheduler with one queued task and an idle worker. -/
theorem CancelCurrent_without_token_witness :
    (run TaskScheduler.init [.Start none, .Submit (some ⟨1, "A"⟩), .Push 0]).currentToken_
        = none
      ∧ (run TaskScheduler.init
          [.Start none, .Submit (some ⟨1, "A"⟩), .Push 0]).CancelCurrent
        = run TaskScheduler.init [.Start none, .Submit (some ⟨1, "A"⟩), .Push 0] :=
  ⟨rfl, (CancelCurrent_without_token _ rfl).1⟩

/-! ## One fresh token per execution -/

/-- A step that keeps `currentToken_`, the token of the worker and the number of tokens
keeps the token invariant. -/
theorem tokInv_of_frame (s s' : TaskScheduler) (h : TokInv s)
    (hc : s'.currentToken_ = s.currentToken_) (hw : s'.workerToken = s.workerToken)
    (hl : s'.heap.length = s.heap.length) : TokInv s' := by
  unfold TokInv at *
  rw [hc, hw, hl]
  exact h

/-- A step of the worker thread keeps the token invariant. -/
theorem tokInv_WorkerThread (s : TaskScheduler) (h : TokInv s) : TokInv s.WorkerThread := by
  unfold TaskScheduler.WorkerThread
  cases hw : s.worker_ with
  | none => exact h
  | some pc =>
    cases pc with
    | entry =>
      exact tokInv_of_frame s _ h rfl (by simp [TaskScheduler.workerToken, hw,
        WorkerPc.tokenOf]) rfl
    | waiting =>
      dsimp only
      split_ifs
      · exact tokInv_of_frame s _ h rfl (by simp [TaskScheduler.workerToken, hw,
          WorkerPc.tokenOf]) rfl
      · cases hq : s.taskQueue_ with
        | nil => exact h
        | cons task rest =>
          exact tokInv_of_frame s _ h rfl (by simp [TaskScheduler.workerToken, hw,
            WorkerPc.tokenOf]) rfl
    | gotTask task =>
      dsimp only
      refine ⟨rfl, fun k hk => ?_⟩
      have hk2 : s.heap.length = k := by simpa using hk
      have hlen : (s.heap ++ [({} : CancellationToken)]).length = k + 1 := by
        rw [List.length_append, hk2]
        rfl
      exact hlen.symm
    | tokenSet task token =>
      dsimp only
      split_ifs
      · exact tokInv_of_frame s _ h rfl (by simp [TaskScheduler.workerToken, hw,
          WorkerPc.tokenOf]) rfl
      · exact tokInv_of_frame s _ h rfl (by simp [TaskScheduler.workerToken, hw,
          WorkerPc.tokenOf]) rfl
    | executing task token => exact h
    | classified task token result taskCancelled =>
      dsimp only
      split_ifs
      · exact tokInv_of_frame s _ h rfl (by simp [TaskScheduler.workerToken, hw,
          WorkerPc.tokenOf]) rfl
      · exact tokInv_of_frame s _ h rfl (by simp [TaskScheduler.workerToken, hw,
          WorkerPc.tokenOf]) rfl
    | notified task token =>
      dsimp only
      exact ⟨rfl, fun k hk => by simp [TaskScheduler.WriteLine, TaskScheduler.cout] at hk⟩
    | leaving =>
      exact tokInv_of_frame s _ h rfl (by simp [TaskScheduler.workerToken, hw,
        WorkerPc.tokenOf]) rfl
    | exited => exact h

/-- Every step keeps the token invariant. -/
theorem tokInv_step (s : TaskScheduler) (a : Action) (h : TokInv s) : TokInv (step s a) := by
  unfold step
  split_ifs
  · exact h
  · cases a with
    | Start logger =>
      show TokInv (s.Start logger)
      unfold TaskScheduler.Start
      split_ifs with h1 h2
      · exact h
      · exact tokInv_of_frame s _ h rfl rfl rfl
      · have hw : s.worker_ = none := by
          cases hw : s.worker_ <;> simp_all
        exact tokInv_of_frame s _ h rfl (by simp [TaskScheduler.workerToken, hw,
          TaskScheduler.WriteLine, TaskScheduler.cout, WorkerPc.tokenOf]) rfl
    | StopFlag =>
      show TokInv s.StopFlag
      unfold TaskScheduler.StopFlag
      split_ifs
      · exact h
      · exact tokInv_of_frame s _ h rfl rfl rfl
    | StopJoin =>
      show TokInv s.StopJoin
      unfold TaskScheduler.StopJoin
      split_ifs with h1
      · have hw : s.worker_ = some .exited := by
          simp only [Bool.and_eq_true, beq_iff_eq] at h1
          exact h1.2
        exact tokInv_of_frame s _ h rfl (by simp [TaskScheduler.workerToken, hw,
          TaskScheduler.WriteLine, TaskScheduler.cout, WorkerPc.tokenOf]) rfl
      · exact h
    | Submit task =>
      show TokInv (s.ExecuteImmediatelyCheck task)
      unfold TaskScheduler.ExecuteImmediatelyCheck
      cases task with
      | none => exact tokInv_of_frame s _ h rfl rfl rfl
      | some t =>
        dsimp only
        split_ifs
        · exact tokInv_of_frame s _ h rfl rfl rfl
        · exact tokInv_of_frame s _ h rfl rfl rfl
    | Push i =>
      show TokInv (s.ExecuteImmediatelyPush i)
      unfold TaskScheduler.ExecuteImmediatelyPush
      cases s.submitting.get? i with
      | none => exact h
      | some t => exact tokInv_of_frame s _ h rfl rfl rfl
    | CancelCurrent =>
      show TokInv s.CancelCurrent
      unfold TaskScheduler.CancelCurrent
      split
      · exact h
      · exact tokInv_of_frame s _ h rfl rfl (List.length_modify _ _ _)
    | AddObserver obs => exact tokInv_of_frame s _ h rfl rfl rfl
    | ObserverDestroyed addr => exact tokInv_of_frame s _ h rfl rfl rfl
    | Worker => exact tokInv_WorkerThread s h
    | Execute o =>
      show TokInv (s.WorkerExecute o)
      unfold TaskScheduler.WorkerExecute
      split
      · next task token hw =>
        exact tokInv_of_frame s _ h rfl (by simp [TaskScheduler.workerToken, hw,
          TaskScheduler.WriteLine, TaskScheduler.cout, WorkerPc.tokenOf]) rfl
      · exact h

/-- The token invariant holds after every sequence of steps from a state where it
holds. -/
theorem tokInv_run (as : List Action) (s : TaskScheduler) (h : TokInv s) :
    TokInv (run s as) := by
  induction as generalizing s with
  | nil => exact h
  | cons a as ih => exact ih (step s a) (tokInv_step s a h)

/-- C18: after every interleaving of steps, `currentToken_` is the token the worker
holds, and it is the token created last. When the worker creates the token for the task
it popped, the token is a new one, appended behind all tokens created before, it reads
not cancelled, and the earlier tokens stay as they are. `CancelCurrent` changes no token
but the current one. So a token cancelled during one execution is never the token of a
later execution. -/
theorem token_fresh_per_execution (as : List Action) :
    ((run TaskScheduler.init as).currentToken_ = (run TaskScheduler.init as).workerToken
        ∧ ∀ k, (run TaskScheduler.init as).currentToken_ = some k →
            k + 1 = (run TaskScheduler.init as).heap.length)
      ∧ (∀ t, (run TaskScheduler.init as).worker_ = some (.gotTask t) →
          (run TaskScheduler.init as).WorkerThread.worker_
              = some (.tokenSet t (run TaskScheduler.init as).heap.length)
            ∧ (run TaskScheduler.init as).WorkerThread.currentToken_
              = some (run TaskScheduler.init as).heap.length
            ∧ (run TaskScheduler.init as).WorkerThread.heap
              = (run TaskScheduler.init as).heap ++ [{ cancelled_ := false }])
      ∧ (∀ k, (run TaskScheduler.init as).currentToken_ = some k →
          (run TaskScheduler.init as).CancelCurrent.heap.length
              = (run TaskScheduler.init as).heap.length
            ∧ ∀ j, j ≠ k →
              (run TaskScheduler.init as).CancelCurrent.heap.get? j
                = (run TaskScheduler.init as).heap.get? j) := by
  refine ⟨tokInv_run as TaskScheduler.init ⟨rfl, fun k hk => by
    simp [TaskScheduler.init] at hk⟩, ?_, ?_⟩
  · intro t ht
    simp [TaskScheduler.WorkerThread, ht]
  · intro k hk
    refine ⟨?_, fun j hj => ?_⟩
    · simp [TaskScheduler.CancelCurrent, hk, TaskScheduler.WriteLine, TaskScheduler.cout]
    · simp [TaskScheduler.CancelCurrent, hk, TaskScheduler.WriteLine, TaskScheduler.cout,
        List.getElem?_modify, Ne.symm hj]

/-- C18 at a run in which the first task is cancelled while it executes: the token
created for the second task is a new one and reads not cancelled. -/
theorem token_fresh_per_execution_witness :
    (run TaskScheduler.init
        [.Start none, .Worker, .Submit (some ⟨1, "A"⟩), .Push 0, .Submit (some ⟨2, "B"⟩),
          .Push 0, .Worker, .Worker, .Worker, .CancelCurrent,
          .Execute (.returned "Cancelled at step 1"), .Worker, .Worker, .Worker]).worker_
        = some (.gotTask ⟨2, "B"⟩)
      ∧ (run TaskScheduler.init
        [.Start none, .Worker, .Submit (some ⟨1, "A"⟩), .Push 0, .Submit (some ⟨2, "B"⟩),
          .Push 0, .Worker, .Worker, .Worker, .CancelCurrent,
          .Execute (.returned "Cancelled at step 1"), .Worker, .Worker, .Worker]).heap
        = [{ cancelled_ := true }]
      ∧ (run TaskScheduler.init
        [.Start none, .Worker, .Submit (some ⟨1, "A"⟩), .Push 0, .Submit (some ⟨2, "B"⟩),
          .Push 0, .Worker, .Worker, .Worker, .CancelCurrent,
          .Execute (.returned "Cancelled at step 1"), .Worker, .Worker, .Worker]).WorkerThread.heap
        = [{ cancelled_ := true }, { cancelled_ := false }] :=
  ⟨by decide, by decide,
    ((token_fresh_per_execution
      [.Start none, .Worker, .Submit (some ⟨1, "A"⟩), .Push 0, .Submit (some ⟨2, "B"⟩),
        .Push 0, .Worker, .Worker, .Worker, .CancelCurrent,
        .Execute (.returned "Cancelled at step 1"), .Worker, .Worker, .Worker]).2.1
      ⟨2, "B"⟩ (by decide)).2.2.trans (by decide)⟩

/-! ## Observers: the calls made by `Notify` -/

/-- When no handler throws, every observer of the list is called once, in order, with
the event, and the loop ends normally. -/
theorem callObservers_of_no_throw (l : List ITaskObserver) (e : TaskEvent)
    (h : ∀ o ∈ l, o.OnTaskEventThrows e = false) :
    callObservers l e = (l.map fun o => (o.addr, e), false) := by
  induction l with
  | nil => rfl
  | cons o rest ih =>
    have ho : o.OnTaskEventThrows e = false := h o (List.mem_cons_self _ _)
    have ih2 := ih fun p hp => h p (List.mem_cons_of_mem _ hp)
    simp [callObservers, ho, ih2]

/-- When a handler throws, the observers up to and including the first that throws are
called, the ones after it are not, and the loop is left by the exception. -/
theorem callObservers_of_throw (pre post : List ITaskObserver) (o : ITaskObserver)
    (e : TaskEvent) (hpre : ∀ p ∈ pre, p.OnTaskEventThrows e = false)
    (ho : o.OnTaskEventThrows e = true) :
    callObservers (pre ++ o :: post) e = ((pre ++ [o]).map fun x => (x.addr, e), true) := by
  induction pre with
  | nil => simp [callObservers, ho]
  | cons q qs ih =>
    have hq : q.OnTaskEventThrows e = false := hpre q (List.mem_cons_self _ _)
    have ih2 := ih fun p hp => hpre p (List.mem_cons_of_mem _ hp)
    simp [callObservers, hq, ih2]

/-- The calls made are always an initial part of the calls to all observers of the list
in order. -/
theorem callObservers_calls_initial (l : List ITaskObserver) (e : TaskEvent) :
    (callObservers l e).1 <+: l.map fun o => (o.addr, e) := by
  induction l with
  | nil => exact List.prefix_refl _
  | cons o rest ih =>
    unfold callObservers
    split_ifs
    · exact ⟨rest.map fun (x : ITaskObserver) => (x.addr, e), rfl⟩
    · exact (List.prefix_cons_inj _).mpr ih

/-- Every call made goes to an observer of the list, with the event. -/
theorem callObservers_mem (l : List ITaskObserver) (e : TaskEvent) (p : Nat × TaskEvent)
    (hp : p ∈ (callObservers l e).1) : ∃ o ∈ l, p = (o.addr, e) := by
  have h := (callObservers_calls_initial l e).subset hp
  rw [List.mem_map] at h
  obtain ⟨o, ho, rfl⟩ := h
  exact ⟨o, ho, rfl⟩

/-- The loop is left by an exception only when a handler of the list throws. -/
theorem callObservers_throws (l : List ITaskObserver) (e : TaskEvent)
    (h : (callObservers l e).2 = true) : ∃ o ∈ l, o.OnTaskEventThrows e = true := by
  by_contra hn
  have hall : ∀ o ∈ l, o.OnTaskEventThrows e = false := by
    intro o ho
    cases hv : o.OnTaskEventThrows e
    · rfl
    · exact absurd ⟨o, ho, hv⟩ hn
  rw [callObservers_of_no_throw l e hall] at h
  exact Bool.false_ne_true h

/-- The observers `Notify` calls are registered and exist. -/
theorem mem_activeObservers (s : TaskScheduler) (o : ITaskObserver)
    (h : o ∈ s.activeObservers) : o ∈ s.observers_ ∧ o.addr ∉ s.destroyed := by
  unfold TaskScheduler.activeObservers at h
  rw [List.mem_filter] at h
  refine ⟨h.1, fun hd => ?_⟩
  have h2 := h.2
  simp [hd] at h2

/-- After `std::terminate` no step changes the state. -/
theorem run_of_terminated (as : List Action) (s : TaskScheduler) (h : s.terminated = true) :
    run s as = s := by
  induction as with
  | nil => rfl
  | cons a as ih =>
    have hs : step s a = s := by simp [step, h]
    show run (step s a) as = s
    rw [hs]
    exact ih

/-- No call made by `Notify` goes to an observer that was destroyed. -/
theorem Notify_calls_avoid_destroyed (s : TaskScheduler) (e : TaskEvent) (addr : Nat)
    (hd : addr ∈ s.destroyed) : ∀ p ∈ (callObservers s.activeObservers e).1, p.1 ≠ addr := by
  intro p hp
  obtain ⟨o, ho, rfl⟩ := callObservers_mem _ _ _ hp
  intro h
  have h2 : o.addr = addr := h
  exact (mem_activeObservers s o ho).2 (h2 ▸ hd)

/-- A step that leaves the destroyed observers and the calls made as they are. -/
theorem calls_frame (s s' : TaskScheduler) (addr : Nat) (hd : addr ∈ s.destroyed)
    (h1 : s'.destroyed = s.destroyed) (h2 : s'.delivered = s.delivered) :
    addr ∈ s'.destroyed ∧ ∃ calls, s'.delivered = s.delivered ++ calls
      ∧ ∀ p ∈ calls, p.1 ≠ addr :=
  ⟨h1 ▸ hd, [], by rw [h2, List.append_nil], fun _ hp => absurd hp (List.not_mem_nil _)⟩

/-- A step that notifies an event and leaves the destroyed observers as they are. -/
theorem calls_notify (s s' : TaskScheduler) (e : TaskEvent) (addr : Nat)
    (hd : addr ∈ s.destroyed) (h1 : s'.destroyed = s.destroyed)
    (h2 : s'.delivered = s.delivered ++ (callObservers s.activeObservers e).1) :
    addr ∈ s'.destroyed ∧ ∃ calls, s'.delivered = s.delivered ++ calls
      ∧ ∀ p ∈ calls, p.1 ≠ addr :=
  ⟨h1 ▸ hd, _, h2, Notify_calls_avoid_destroyed s e addr hd⟩

/-- No step calls an observer that was destroyed, and a destroyed observer stays
destroyed. -/
theorem step_calls_avoid_destroyed (s : TaskScheduler) (a : Action) (addr : Nat)
    (hd : addr ∈ s.destroyed) :
    addr ∈ (step s a).destroyed ∧ ∃ calls, (step s a).delivered = s.delivered ++ calls
      ∧ ∀ p ∈ calls, p.1 ≠ addr := by
  unfold step
  split_ifs
  · exact calls_frame s _ addr hd rfl rfl
  · cases a with
    | Start logger =>
      show _ ∈ (s.Start logger).destroyed ∧ ∃ calls, (s.Start logger).delivered = _ ∧ _
      unfold TaskScheduler.Start
      split_ifs
      · exact calls_frame s _ addr hd rfl rfl
      · exact calls_frame s _ addr hd rfl rfl
      · exact calls_frame s _ addr hd rfl rfl
    | StopFlag =>
      show _ ∈ s.StopFlag.destroyed ∧ ∃ calls, s.StopFlag.delivered = _ ∧ _
      unfold TaskScheduler.StopFlag
      split_ifs
      · exact calls_frame s _ addr hd rfl rfl
      · exact calls_frame s _ addr hd rfl rfl
    | StopJoin =>
      show _ ∈ s.StopJoin.destroyed ∧ ∃ calls, s.StopJoin.delivered = _ ∧ _
      unfold TaskScheduler.StopJoin
      split_ifs
      · exact calls_frame s _ addr hd rfl rfl
      · exact calls_frame s _ addr hd rfl rfl
    | Submit task =>
      show _ ∈ (s.ExecuteImmediatelyCheck task).destroyed
        ∧ ∃ calls, (s.ExecuteImmediatelyCheck task).delivered = _ ∧ _
      unfold TaskScheduler.ExecuteImmediatelyCheck
      cases task with
      | none => exact calls_frame s _ addr hd rfl rfl
      | some t =>
        dsimp only
        split_ifs
        · exact calls_frame s _ addr hd rfl rfl
        · exact calls_frame s _ addr hd rfl rfl
    | Push i =>
      show _ ∈ (s.ExecuteImmediatelyPush i).destroyed
        ∧ ∃ calls, (s.ExecuteImmediatelyPush i).delivered = _ ∧ _
      unfold TaskScheduler.ExecuteImmediatelyPush
      split
      · exact calls_frame s _ addr hd rfl rfl
      · exact calls_frame s _ addr hd rfl rfl
    | CancelCurrent =>
      show _ ∈ s.CancelCurrent.destroyed ∧ ∃ calls, s.CancelCurrent.delivered = _ ∧ _
      unfold TaskScheduler.CancelCurrent
      split
      · exact calls_frame s _ addr hd rfl rfl
      · exact calls_frame s _ addr hd rfl rfl
    | AddObserver obs => exact calls_frame s _ addr hd rfl rfl
    | ObserverDestroyed other =>
      exact ⟨List.mem_cons_of_mem _ hd, [], (List.append_nil _).symm,
        fun _ hp => absurd hp (List.not_mem_nil _)⟩
    | Worker =>
      show _ ∈ s.WorkerThread.destroyed ∧ ∃ calls, s.WorkerThread.delivered = _ ∧ _
      unfold TaskScheduler.WorkerThread
      split
      · exact calls_frame s _ addr hd rfl rfl
      · split_ifs
        · exact calls_frame s _ addr hd rfl rfl
        · split
          · exact calls_frame s _ addr hd rfl rfl
          · exact calls_frame s _ addr hd rfl rfl
      · exact calls_frame s _ addr hd rfl rfl
      · exact calls_frame s _ addr hd rfl rfl
      · split_ifs
        · exact calls_notify s _ _ addr hd rfl rfl
        · exact calls_notify s _ _ addr hd rfl rfl
      · split_ifs
        · exact calls_notify s _ _ addr hd rfl rfl
        · exact calls_notify s _ _ addr hd rfl rfl
      · exact calls_frame s _ addr hd rfl rfl
      · exact calls_frame s _ addr hd rfl rfl
    | Execute o =>
      show _ ∈ (s.WorkerExecute o).destroyed ∧ ∃ calls, (s.WorkerExecute o).delivered = _ ∧ _
      unfold TaskScheduler.WorkerExecute
      split
      · exact calls_frame s _ addr hd rfl rfl
      · exact calls_frame s _ addr hd rfl rfl

/-- No run calls an observer that was destroyed before it. -/
theorem run_calls_avoid_destroyed (as : List Action) (s : TaskScheduler) (addr : Nat)
    (hd : addr ∈ s.destroyed) :
    ∃ calls, (run s as).delivered = s.delivered ++ calls ∧ ∀ p ∈ calls, p.1 ≠ addr := by
  induction as generalizing s with
  | nil => exact ⟨[], (List.append_nil _).symm, fun _ hp => absurd hp (List.not_mem_nil _)⟩
  | cons a as ih =>
    obtain ⟨hd1, c1, hc1, hn1⟩ := step_calls_avoid_destroyed s a addr hd
    obtain ⟨c2, hc2, hn2⟩ := ih (step s a) hd1
    refine ⟨c1 ++ c2, ?_, ?_⟩
    · show (run (step s a) as).delivered = _
      rw [hc2, hc1, List.append_assoc]
    · intro p hp
      rcases List.mem_append.mp hp with h | h
      · exact hn1 p h
      · exact hn2 p h

/-- C14 fails as stated: the observer 1, whose handler throws, is registered before the
observer 2. When the worker notifies `Started` for task A, only observer 1 is called.
The process is ended: whatever steps follow, the completion event of A is not notified,
the current token is not cleared and the queued task B is not processed. -/
theorem throwing_observer_breaks_worker :
    (run TaskScheduler.init
        [.AddObserver ⟨1, fun _ => true⟩, .AddObserver ⟨2, fun _ => false⟩, .Start none,
          .Worker, .Submit (some ⟨1, "A"⟩), .Push 0, .Submit (some ⟨2, "B"⟩), .Push 0,
          .Worker, .Worker, .Worker,
          .Execute (.returned "done"), .Worker, .Worker, .Worker, .Worker]).delivered
        = [(1, ⟨.Started, "A", ""⟩)]
      ∧ (run TaskScheduler.init
        [.AddObserver ⟨1, fun _ => true⟩, .AddObserver ⟨2, fun _ => false⟩, .Start none,
          .Worker, .Submit (some ⟨1, "A"⟩), .Push 0, .Submit (some ⟨2, "B"⟩), .Push 0,
          .Worker, .Worker, .Worker,
          .Execute (.returned "done"), .Worker, .Worker, .Worker, .Worker]).emitted
        = [⟨.Started, "A", ""⟩]
      ∧ (run TaskScheduler.init
        [.AddObserver ⟨1, fun _ => true⟩, .AddObserver ⟨2, fun _ => false⟩, .Start none,
          .Worker, .Submit (some ⟨1, "A"⟩), .Push 0, .Submit (some ⟨2, "B"⟩), .Push 0,
          .Worker, .Worker, .Worker,
          .Execute (.returned "done"), .Worker, .Worker, .Worker, .Worker]).currentToken_
        = some 0
      ∧ (run TaskScheduler.init
        [.AddObserver ⟨1, fun _ => true⟩, .AddObserver ⟨2, fun _ => false⟩, .Start none,
          .Worker, .Submit (some ⟨1, "A"⟩), .Push 0, .Submit (some ⟨2, "B"⟩), .Push 0,
          .Worker, .Worker, .Worker,
          .Execute (.returned "done"), .Worker, .Worker, .Worker, .Worker]).taskQueue_
        = [⟨2, "B"⟩] := by
  decide

/-- C14, amended: when the worker notifies an event and the handler of a live observer
throws, the observers before it and that observer are called, the observers registered
after it are not, and the exception, which nothing catches, ends the process: no later
step changes the state, so the current token stays and no further event is notified. -/
theorem observer_exception_not_contained (s : TaskScheduler) (e : TaskEvent)
    (pre post : List ITaskObserver) (o : ITaskObserver) (hnt : s.terminated = false)
    (hp : s.pendingEvent = some e) (hact : s.activeObservers = pre ++ o :: post)
    (hpre : ∀ p ∈ pre, p.OnTaskEventThrows e = false) (ho : o.OnTaskEventThrows e = true) :
    (step s .Worker).delivered = s.delivered ++ (pre ++ [o]).map (fun x => (x.addr, e))
      ∧ (step s .Worker).emitted = s.emitted ++ [e]
      ∧ (step s .Worker).currentToken_ = s.currentToken_
      ∧ (step s .Worker).terminated = true
      ∧ ∀ as : List Action, run (step s .Worker) as = step s .Worker := by
  have hc := callObservers_of_throw pre post o e hpre ho
  rw [← hact] at hc
  have hthrow : s.NotifyThrows e = true := by
    unfold TaskScheduler.NotifyThrows
    rw [hc]
  have hstep : step s .Worker = s.WorkerThread := by simp [step, hnt]
  have hmain : s.WorkerThread.delivered
        = s.delivered ++ (pre ++ [o]).map (fun x => (x.addr, e))
      ∧ s.WorkerThread.emitted = s.emitted ++ [e]
      ∧ s.WorkerThread.currentToken_ = s.currentToken_
      ∧ s.WorkerThread.terminated = true := by
    unfold TaskScheduler.pendingEvent at hp
    split at hp
    · next task token hw =>
      have he : (⟨.Started, task.GetName, ""⟩ : TaskEvent) = e := by simpa using hp
      subst he
      simp [TaskScheduler.WorkerThread, hw, hthrow, TaskScheduler.Notify, hc,
        TaskScheduler.WriteLine, TaskScheduler.cout]
    · next task token result taskCancelled hw =>
      have he : completionEvent task.GetName result taskCancelled = e := by simpa using hp
      subst he
      simp [TaskScheduler.WorkerThread, hw, hthrow, TaskScheduler.Notify, hc,
        TaskScheduler.WriteLine, TaskScheduler.cout]
    · simp at hp
  rw [hstep]
  exact ⟨hmain.1, hmain.2.1, hmain.2.2.1, hmain.2.2.2,
    fun as => run_of_terminated as _ hmain.2.2.2⟩

/-- C14, amended, at a worker about to notify `Started` for task A with the observers 1
(returns), 2 (throws) and 3 (returns) registered. -/
theorem observer_exception_not_contained_witness :
    (step (run TaskScheduler.init
        [.AddObserver ⟨1, fun _ => false⟩, .AddObserver ⟨2, fun _ => true⟩,
          .AddObserver ⟨3, fun _ => false⟩, .Start none, .Worker,
          .Submit (some ⟨1, "A"⟩), .Push 0, .Worker, .Worker]) .Worker).delivered
        = [(1, ⟨.Started, "A", ""⟩), (2, ⟨.Started, "A", ""⟩)]
      ∧ (step (run TaskScheduler.init
        [.AddObserver ⟨1, fun _ => false⟩, .AddObserver ⟨2, fun _ => true⟩,
          .AddObserver ⟨3, fun _ => false⟩, .Start none, .Worker,
          .Submit (some ⟨1, "A"⟩), .Push 0, .Worker, .Worker]) .Worker).terminated = true :=
  ⟨(observer_exception_not_contained
      (run TaskScheduler.init
        [.AddObserver ⟨1, fun _ => false⟩, .AddObserver ⟨2, fun _ => true⟩,
          .AddObserver ⟨3, fun _ => false⟩, .Start none, .Worker,
          .Submit (some ⟨1, "A"⟩), .Push 0, .Worker, .Worker])
      ⟨.Started, "A", ""⟩ [⟨1, fun _ => false⟩] [⟨3, fun _ => false⟩] ⟨2, fun _ => true⟩
      rfl rfl rfl (by simp) rfl).1,
    (observer_exception_not_contained
      (run TaskScheduler.init
        [.AddObserver ⟨1, fun _ => false⟩, .AddObserver ⟨2, fun _ => true⟩,
          .AddObserver ⟨3, fun _ => false⟩, .Start none, .Worker,
          .Submit (some ⟨1, "A"⟩), .Push 0, .Worker, .Worker])
      ⟨.Started, "A", ""⟩ [⟨1, fun _ => false⟩] [⟨3, fun _ => false⟩] ⟨2, fun _ => true⟩
      rfl rfl rfl (by simp) rfl).2.2.2.1⟩

/-- C16: an observer that was destroyed is called by no later `Notify`, whatever steps
are taken. The `Notify` that comes next leaves in the registry exactly the registrations
whose target exists, in their order, none of them the destroyed observer. A destroyed
registration raises nothing: when `Notify` is left by an exception, it is the handler of
a live observer that threw. -/
theorem destroyed_observer_pruned (s : TaskScheduler) (addr : Nat)
    (hd : addr ∈ s.destroyed) :
    (∀ as : List Action, ∃ calls,
        (run s as).delivered = s.delivered ++ calls ∧ ∀ p ∈ calls, p.1 ≠ addr)
      ∧ ∀ e : TaskEvent,
          (s.Notify e).observers_
              = s.observers_.filter (fun o => !s.destroyed.contains o.addr)
            ∧ (∀ o ∈ (s.Notify e).observers_, o.addr ≠ addr)
            ∧ (∀ p ∈ (s.Notify e).delivered, p ∈ s.delivered ∨ p.1 ≠ addr)
            ∧ (s.NotifyThrows e = true →
                ∃ o ∈ s.observers_, o.addr ∉ s.destroyed ∧ o.OnTaskEventThrows e = true) := by
  refine ⟨fun as => run_calls_avoid_destroyed as s addr hd, fun e => ⟨rfl, ?_, ?_, ?_⟩⟩
  · intro o ho h
    exact (mem_activeObservers s o ho).2 (h ▸ hd)
  · intro p hp
    rcases List.mem_append.mp hp with h | h
    · exact Or.inl h
    · exact Or.inr (Notify_calls_avoid_destroyed s e addr hd p h)
  · intro ht
    obtain ⟨o, ho, hthrow⟩ := callObservers_throws _ _ ht
    exact ⟨o, (mem_activeObservers s o ho).1, (mem_activeObservers s o ho).2, hthrow⟩

/-- C16 at a registry of the observers 1, 2 and 3 in which observer 2 was destroyed
before the worker notifies `Started` for task A. -/
theorem destroyed_observer_pruned_witness :
    (2 ∈ (run TaskScheduler.init
        [.AddObserver ⟨1, fun _ => false⟩, .AddObserver ⟨2, fun _ => false⟩,
          .AddObserver ⟨3, fun _ => false⟩, .ObserverDestroyed 2]).destroyed)
      ∧ (((run TaskScheduler.init
        [.AddObserver ⟨1, fun _ => false⟩, .AddObserver ⟨2, fun _ => false⟩,
          .AddObserver ⟨3, fun _ => false⟩, .ObserverDestroyed 2]).Notify
            ⟨.Started, "A", ""⟩).observers_.map ITaskObserver.addr) = [1, 3]
      ∧ ((run TaskScheduler.init
        [.AddObserver ⟨1, fun _ => false⟩, .AddObserver ⟨2, fun _ => false⟩,
          .AddObserver ⟨3, fun _ => false⟩, .ObserverDestroyed 2]).Notify
            ⟨.Started, "A", ""⟩).delivered
        = [(1, ⟨.Started, "A", ""⟩), (3, ⟨.Started, "A", ""⟩)] :=
  ⟨by decide,
    (congrArg (List.map ITaskObserver.addr)
      ((destroyed_observer_pruned (run TaskScheduler.init
        [.AddObserver ⟨1, fun _ => false⟩, .AddObserver ⟨2, fun _ => false⟩,
          .AddObserver ⟨3, fun _ => false⟩, .ObserverDestroyed 2]) 2 (by decide)).2
        ⟨.Started, "A", ""⟩).1).trans (by decide),
    by decide⟩

/-! ## Tasks pending at `Stop` -/

/-- Under the invariant, every `Started` event names a task that was popped, in pop
order. -/
theorem startedNames_of_inv (s : TaskScheduler) (h : Inv s) :
    startedNames s.emitted <+: s.dequeued.map ITask.GetName := by
  obtain ⟨_, ps, h2, h3, h4⟩ := h
  rw [h2, ← h3, startedNames_append, startedNames_pairedTrace ps h4, List.map_append]
  exact (List.prefix_append_right_inj _).mpr (openStarted_names_of_inFlight _)

/-- A run in two parts. -/
theorem run_append (s : TaskScheduler) (as bs : List Action) :
    run s (as ++ bs) = run (run s as) bs := by
  simp [run, List.foldl_append]

/-- A step that keeps `running_`, the popped tasks and the queue. -/
theorem stopped_frame (s s' : TaskScheduler) (hr : s.running_ = false)
    (h1 : s'.running_ = s.running_) (h2 : s'.dequeued = s.dequeued)
    (h3 : s'.taskQueue_ = s.taskQueue_) :
    s'.running_ = false ∧ s'.dequeued = s.dequeued ∧ s.taskQueue_ <+: s'.taskQueue_ :=
  ⟨h1.trans hr, h2, h3 ▸ List.prefix_refl _⟩

/-- While `running_` is false, no step other than `Start` sets it, pops a task or takes
a task out of the queue. -/
theorem step_while_stopped (s : TaskScheduler) (a : Action) (hr : s.running_ = false)
    (ha : a.isStart = false) :
    (step s a).running_ = false ∧ (step s a).dequeued = s.dequeued
      ∧ s.taskQueue_ <+: (step s a).taskQueue_ := by
  unfold step
  split_ifs
  · exact stopped_frame s _ hr rfl rfl rfl
  · cases a with
    | Start logger => simp [Action.isStart] at ha
    | StopFlag =>
      show s.StopFlag.running_ = false ∧ s.StopFlag.dequeued = _ ∧ _ <+: s.StopFlag.taskQueue_
      have h : s.StopFlag = s := by simp [TaskScheduler.StopFlag, hr]
      rw [h]
      exact stopped_frame s _ hr rfl rfl rfl
    | StopJoin =>
      show s.StopJoin.running_ = false ∧ s.StopJoin.dequeued = _ ∧ _ <+: s.StopJoin.taskQueue_
      unfold TaskScheduler.StopJoin
      split_ifs
      · exact stopped_frame s _ hr rfl rfl rfl
      · exact stopped_frame s _ hr rfl rfl rfl
    | Submit task =>
      show (s.ExecuteImmediatelyCheck task).running_ = false
        ∧ (s.ExecuteImmediatelyCheck task).dequeued = _
        ∧ _ <+: (s.ExecuteImmediatelyCheck task).taskQueue_
      unfold TaskScheduler.ExecuteImmediatelyCheck
      cases task with
      | none => exact stopped_frame s _ hr rfl rfl rfl
      | some t =>
        dsimp only
        split_ifs
        · exact stopped_frame s _ hr rfl rfl rfl
        · exact stopped_frame s _ hr rfl rfl rfl
    | Push i =>
      show (s.ExecuteImmediatelyPush i).running_ = false
        ∧ (s.ExecuteImmediatelyPush i).dequeued = _
        ∧ _ <+: (s.ExecuteImmediatelyPush i).taskQueue_
      unfold TaskScheduler.ExecuteImmediatelyPush
      split
      · exact stopped_frame s _ hr rfl rfl rfl
      · exact ⟨hr, rfl, List.prefix_append _ _⟩
    | CancelCurrent =>
      show s.CancelCurrent.running_ = false ∧ s.CancelCurrent.dequeued = _
        ∧ _ <+: s.CancelCurrent.taskQueue_
      unfold TaskScheduler.CancelCurrent
      split
      · exact stopped_frame s _ hr rfl rfl rfl
      · exact stopped_frame s _ hr rfl rfl rfl
    | AddObserver obs => exact stopped_frame s _ hr rfl rfl rfl
    | ObserverDestroyed other => exact stopped_frame s _ hr rfl rfl rfl
    | Worker =>
      show s.WorkerThread.running_ = false ∧ s.WorkerThread.dequeued = _
        ∧ _ <+: s.WorkerThread.taskQueue_
      unfold TaskScheduler.WorkerThread
      split
      · exact stopped_frame s _ hr rfl rfl rfl
      · split_ifs with h1
        · exact stopped_frame s _ hr rfl rfl rfl
        · simp [hr] at h1
      · exact stopped_frame s _ hr rfl rfl rfl
      · exact stopped_frame s _ hr rfl rfl rfl
      · split_ifs
        · exact stopped_frame s _ hr rfl rfl rfl
        · exact stopped_frame s _ hr rfl rfl rfl
      · split_ifs
        · exact stopped_frame s _ hr rfl rfl rfl
        · exact stopped_frame s _ hr rfl rfl rfl
      · exact stopped_frame s _ hr rfl rfl rfl
      · exact stopped_frame s _ hr rfl rfl rfl
    | Execute o =>
      show (s.WorkerExecute o).running_ = false ∧ (s.WorkerExecute o).dequeued = _
        ∧ _ <+: (s.WorkerExecute o).taskQueue_
      unfold TaskScheduler.WorkerExecute
      split
      · exact stopped_frame s _ hr rfl rfl rfl
      · exact stopped_frame s _ hr rfl rfl rfl

/-- While `running_` is false, no run without `Start` pops a task or takes a task out
of the queue. -/
theorem run_while_stopped (as : List Action) (s : TaskScheduler) (hr : s.running_ = false)
    (hns : ∀ a ∈ as, a.isStart = false) :
    (run s as).running_ = false ∧ (run s as).dequeued = s.dequeued
      ∧ s.taskQueue_ <+: (run s as).taskQueue_ := by
  induction as generalizing s with
  | nil => exact stopped_frame s _ hr rfl rfl rfl
  | cons a as ih =>
    obtain ⟨h1, h2, h3⟩ := step_while_stopped s a hr (hns a (List.mem_cons_self _ _))
    obtain ⟨k1, k2, k3⟩ := ih (step s a) h1 (fun b hb => hns b (List.mem_cons_of_mem _ hb))
    exact ⟨k1, k2.trans h2, h3.trans k3⟩

/-- After `Stop` has returned, a new `Start` lets the new worker pop the task at the head
of the queue that was left, and notify `Started` for it. -/
theorem restart_starts_pending (s : TaskScheduler) (logger : Option LogWriter) (t : ITask)
    (rest : List ITask) (hr : s.running_ = false) (ht : s.terminated = false)
    (hw : s.worker_ = none) (hq : s.taskQueue_ = t :: rest) :
    (run s [.Start logger, .Worker, .Worker, .Worker, .Worker]).emitted
        = s.emitted ++ [⟨.Started, t.GetName, ""⟩]
      ∧ (run s [.Start logger, .Worker, .Worker, .Worker, .Worker]).dequeued
        = s.dequeued ++ [t] := by
  have h1 : step s (.Start logger)
      = (({ s with logger_ := logger, running_ := true, worker_ := some .entry }).WriteLine
          "TaskScheduler started").cout "TaskScheduler started" := by
    simp [step, ht, TaskScheduler.Start, hr, hw]
  simp only [run, List.foldl_cons, List.foldl_nil, h1]
  constructor
  · simp only [step, TaskScheduler.WorkerThread, TaskScheduler.WriteLine, TaskScheduler.cout,
      ht, hr, hq, Bool.false_eq_true, if_false, Bool.not_true]
    split_ifs <;> simp [TaskScheduler.Notify, TaskScheduler.WriteLine, TaskScheduler.cout]
  · simp only [step, TaskScheduler.WorkerThread, TaskScheduler.WriteLine, TaskScheduler.cout,
      ht, hr, hq, Bool.false_eq_true, if_false, Bool.not_true]
    split_ifs <;> simp [TaskScheduler.Notify, TaskScheduler.WriteLine, TaskScheduler.cout]

/-- C13 fails as stated: task A is queued when `Stop` clears `running_`. The worker
exits, `Stop` returns, and after a later `Start` the new worker pops A and notifies
`Started` for it. -/
theorem pending_task_started_after_restart :
    (run TaskScheduler.init
        [.Start none, .Worker, .Submit (some ⟨1, "A"⟩), .Push 0, .StopFlag]).taskQueue_
        = [⟨1, "A"⟩]
      ∧ (run TaskScheduler.init
        [.Start none, .Worker, .Submit (some ⟨1, "A"⟩), .Push 0, .StopFlag]).running_ = false
      ∧ (run TaskScheduler.init
        [.Start none, .Worker, .Submit (some ⟨1, "A"⟩), .Push 0, .StopFlag]).emitted = []
      ∧ (run TaskScheduler.init
        [.Start none, .Worker, .Submit (some ⟨1, "A"⟩), .Push 0, .StopFlag,
          .Worker, .Worker, .StopJoin,
          .Start none, .Worker, .Worker, .Worker, .Worker]).emitted
        = [⟨.Started, "A", ""⟩] := by
  decide

/-- C13, amended: from the moment `running_` is false and as long as `Start` is not
called, no task is popped and no task leaves the queue, so that every `Started` event
names a task popped before; the worker exits without draining. Neither `Stop` nor
`Start` empties the queue: once `Stop` has returned, a later `Start` makes the new worker
pop the task at the head of the queue and notify `Started` for it. -/
theorem pending_tasks_wait_for_restart (as0 as : List Action)
    (hr : (run TaskScheduler.init as0).running_ = false)
    (hns : ∀ a ∈ as, a.isStart = false) :
    ((run TaskScheduler.init (as0 ++ as)).dequeued = (run TaskScheduler.init as0).dequeued
        ∧ (run TaskScheduler.init as0).taskQueue_
            <+: (run TaskScheduler.init (as0 ++ as)).taskQueue_
        ∧ startedNames (run TaskScheduler.init (as0 ++ as)).emitted
            <+: (run TaskScheduler.init as0).dequeued.map ITask.GetName)
      ∧ ∀ (logger : Option LogWriter) (t : ITask) (rest : List ITask),
          (run TaskScheduler.init (as0 ++ as)).terminated = false →
          (run TaskScheduler.init (as0 ++ as)).worker_ = none →
          (run TaskScheduler.init (as0 ++ as)).taskQueue_ = t :: rest →
          (run (run TaskScheduler.init (as0 ++ as))
              [.Start logger, .Worker, .Worker, .Worker, .Worker]).emitted
            = (run TaskScheduler.init (as0 ++ as)).emitted ++ [⟨.Started, t.GetName, ""⟩] := by
  have h := run_while_stopped as (run TaskScheduler.init as0) hr hns
  rw [← run_append] at h
  refine ⟨⟨h.2.1, h.2.2, ?_⟩, fun logger t rest ht hw hq => ?_⟩
  · rw [← h.2.1]
    exact startedNames_of_inv _ (inv_run _ _ inv_init)
  · exact (restart_starts_pending _ logger t rest h.1 ht hw hq).1

/-- C13, amended, at a scheduler stopped with task A in the queue: while it is stopped
nothing is popped, and the restart starts A. -/
theorem pending_tasks_wait_for_restart_witness :
    (run TaskScheduler.init
        ([.Start none, .Worker, .Submit (some ⟨1, "A"⟩), .Push 0, .StopFlag]
          ++ [.Worker, .Worker, .StopJoin])).dequeued = []
      ∧ (run (run TaskScheduler.init
        ([.Start none, .Worker, .Submit (some ⟨1, "A"⟩), .Push 0, .StopFlag]
          ++ [.Worker, .Worker, .StopJoin]))
          [.Start none, .Worker, .Worker, .Worker, .Worker]).emitted
        = [⟨.Started, "A", ""⟩] :=
  ⟨(pending_tasks_wait_for_restart
      [.Start none, .Worker, .Submit (some ⟨1, "A"⟩), .Push 0, .StopFlag]
      [.Worker, .Worker, .StopJoin] (by decide) (by decide)).1.1,
    (pending_tasks_wait_for_restart
      [.Start none, .Worker, .Submit (some ⟨1, "A"⟩), .Push 0, .StopFlag]
      [.Worker, .Worker, .StopJoin] (by decide) (by decide)).2 none ⟨1, "A"⟩ []
        (by decide) (by decide) (by decide)⟩

/-! ## `CancelCurrent` with a task in flight -/

/-- C22: after every interleaving of steps, when `currentToken_` holds a token,
`CancelCurrent` sets the flag of that token and of no other token, and writes its line to
the logger and to `std::cout`. Every other part of the state is as before: the queue,
`running_`, the observer registry, the worker, the events. No task in the queue is
removed, and none of them has a token yet that could be cancelled. -/
theorem CancelCurrent_sets_current_only (as : List Action) (k : Nat)
    (h : (run TaskScheduler.init as).currentToken_ = some k) :
    ((run TaskScheduler.init as).CancelCurrent.heap.get? k = some { cancelled_ := true }
        ∧ ∀ j, j ≠ k → (run TaskScheduler.init as).CancelCurrent.heap.get? j
            = (run TaskScheduler.init as).heap.get? j)
      ∧ ∃ lines,
        (run TaskScheduler.init as).CancelCurrent
          = { run TaskScheduler.init as with
              heap := (run TaskScheduler.init as).heap.modify CancellationToken.Cancel k
              logged := (run TaskScheduler.init as).logged ++ lines
              console := (run TaskScheduler.init as).console ++ ["Cancelling current task"] } := by
  have hlen : k + 1 = (run TaskScheduler.init as).heap.length :=
    (tokInv_run as TaskScheduler.init ⟨rfl, fun k hk => by
      simp [TaskScheduler.init] at hk⟩).2 k h
  have hk : k < (run TaskScheduler.init as).heap.length := by omega
  refine ⟨⟨?_, fun j hj => ?_⟩, ?_⟩
  · simp [TaskScheduler.CancelCurrent, h, TaskScheduler.WriteLine, TaskScheduler.cout,
      List.getElem?_modify, List.getElem?_eq_getElem hk, CancellationToken.Cancel]
  · simp [TaskScheduler.CancelCurrent, h, TaskScheduler.WriteLine, TaskScheduler.cout,
      List.getElem?_modify, Ne.symm hj]
  · cases hl : (run TaskScheduler.init as).logger_ with
    | none =>
      exact ⟨[], by simp [TaskScheduler.CancelCurrent, h, TaskScheduler.WriteLine,
        TaskScheduler.cout, hl]⟩
    | some w =>
      exact ⟨[(w, "Cancelling current task")], by
        simp [TaskScheduler.CancelCurrent, h, TaskScheduler.WriteLine, TaskScheduler.cout, hl]⟩

/-- C22 at a scheduler that executes task A while task B is queued. -/
theorem CancelCurrent_sets_current_only_witness :
    (run TaskScheduler.init
        [.Start none, .Worker, .Submit (some ⟨1, "A"⟩), .Push 0, .Submit (some ⟨2, "B"⟩),
          .Push 0, .Worker, .Worker, .Worker]).currentToken_ = some 0
      ∧ (run TaskScheduler.init
        [.Start none, .Worker, .Submit (some ⟨1, "A"⟩), .Push 0, .Submit (some ⟨2, "B"⟩),
          .Push 0, .Worker, .Worker, .Worker]).CancelCurrent.heap.get? 0
        = some { cancelled_ := true }
      ∧ (run TaskScheduler.init
        [.Start none, .Worker, .Submit (some ⟨1, "A"⟩), .Push 0, .Submit (some ⟨2, "B"⟩),
          .Push 0, .Worker, .Worker, .Worker]).CancelCurrent.taskQueue_ = [⟨2, "B"⟩] :=
  ⟨by decide,
    (CancelCurrent_sets_current_only
      [.Start none, .Worker, .Submit (some ⟨1, "A"⟩), .Push 0, .Submit (some ⟨2, "B"⟩),
        .Push 0, .Worker, .Worker, .Worker] 0 (by decide)).1.1,
    by decide⟩

/-! ## When `currentToken_` is set -/

/-- C23 fails as stated, in two reachable states. After the worker has popped task A and
before it creates the token, a task is between dequeue and classification and
`currentToken_` is empty. After the completion event of A was notified and before the
worker resets `currentToken_`, the outcome is classified and notified and
`currentToken_` is still set. -/
theorem currentToken_windows :
    ((run TaskScheduler.init
        [.Start none, .Worker, .Submit (some ⟨1, "A"⟩), .Push 0, .Worker]).worker_
        = some (.gotTask ⟨1, "A"⟩)
      ∧ (run TaskScheduler.init
        [.Start none, .Worker, .Submit (some ⟨1, "A"⟩), .Push 0, .Worker]).dequeued
        = [⟨1, "A"⟩]
      ∧ (run TaskScheduler.init
        [.Start none, .Worker, .Submit (some ⟨1, "A"⟩), .Push 0, .Worker]).currentToken_
        = none)
      ∧ ((run TaskScheduler.init
        [.Start none, .Worker, .Submit (some ⟨1, "A"⟩), .Push 0, .Worker, .Worker, .Worker,
          .Execute (.returned "done"), .Worker]).worker_ = some (.notified ⟨1, "A"⟩ 0)
      ∧ (run TaskScheduler.init
        [.Start none, .Worker, .Submit (some ⟨1, "A"⟩), .Push 0, .Worker, .Worker, .Worker,
          .Execute (.returned "done"), .Worker]).emitted
        = [⟨.Started, "A", ""⟩, ⟨.Succeeded, "A", "done"⟩]
      ∧ (run TaskScheduler.init
        [.Start none, .Worker, .Submit (some ⟨1, "A"⟩), .Push 0, .Worker, .Worker, .Worker,
          .Execute (.returned "done"), .Worker]).currentToken_ = some 0) := by
  decide

/-- C23, amended: in every reachable state `currentToken_` is the token the worker
holds. It is set exactly from the moment the worker has created and published the token
of the task it popped until the worker resets it behind the completion notification:
while the task is started, executed, classified and its completion event notified. It is
empty initially, while the worker waits, between the pop and the creation of the token,
and after the reset. -/
theorem currentToken_iff_worker_holds_token (as : List Action) :
    TaskScheduler.init.currentToken_ = none
      ∧ (run TaskScheduler.init as).currentToken_ = (run TaskScheduler.init as).workerToken
      ∧ ((run TaskScheduler.init as).currentToken_.isSome = true ↔
          ∃ t k, (run TaskScheduler.init as).worker_ = some (.tokenSet t k)
            ∨ (run TaskScheduler.init as).worker_ = some (.executing t k)
            ∨ (∃ r c, (run TaskScheduler.init as).worker_ = some (.classified t k r c))
            ∨ (run TaskScheduler.init as).worker_ = some (.notified t k)) := by
  have h := (tokInv_run as TaskScheduler.init ⟨rfl, fun k hk => by
    simp [TaskScheduler.init] at hk⟩).1
  refine ⟨rfl, h, ?_⟩
  rw [h]
  unfold TaskScheduler.workerToken
  cases hw : (run TaskScheduler.init as).worker_ with
  | none => simp
  | some pc => cases pc <;> simp [WorkerPc.tokenOf]

/-! ## The check of `running_` in `ExecuteImmediately` -/

/-- C24, at a failing interleaving: a caller of `ExecuteImmediately` passes the check of
`running_`, which is made before `mtx_` is taken; `Stop` then clears `running_` in its
locked block; the caller then takes `mtx_` and pushes. The task is appended to the queue
while `running_` is false. -/
theorem push_after_stop :
    (run TaskScheduler.init [.Start none, .Worker]).running_ = true
      ∧ (run TaskScheduler.init
        [.Start none, .Worker, .Submit (some ⟨1, "A"⟩), .StopFlag]).running_ = false
      ∧ (run TaskScheduler.init
        [.Start none, .Worker, .Submit (some ⟨1, "A"⟩), .StopFlag]).taskQueue_ = []
      ∧ (run TaskScheduler.init
        [.Start none, .Worker, .Submit (some ⟨1, "A"⟩), .StopFlag, .Push 0]).running_ = false
      ∧ (run TaskScheduler.init
        [.Start none, .Worker, .Submit (some ⟨1, "A"⟩), .StopFlag, .Push 0]).taskQueue_
        = [⟨1, "A"⟩] := by
  decide

/-! ## `Stop` while a task is executing -/

/-- From a running scheduler whose worker is inside `Execute`, after the locked block of
`Stop`: when `Execute` returns and no handler throws on the completion event, the worker
notifies the completion event, then resets `currentToken_`, then sees `running_` false
and leaves the loop without touching the queue, and the thread ends, so that the join of
`Stop` returns. -/
theorem stop_progress (s : TaskScheduler) (t : ITask) (k : Nat) (o : ExecOutcome)
    (hw : s.worker_ = some (.executing t k)) (hr : s.running_ = true)
    (ht : s.terminated = false)
    (hn : s.NotifyThrows (terminalEvent t.GetName o (s.heap.getD k {})) = false) :
    ((run (step s .StopFlag) [.Execute o, .Worker]).emitted
          = s.emitted ++ [terminalEvent t.GetName o (s.heap.getD k {})]
        ∧ (run (step s .StopFlag) [.Execute o, .Worker]).worker_ = some (.notified t k))
      ∧ ((run (step s .StopFlag) [.Execute o, .Worker, .Worker]).emitted
          = s.emitted ++ [terminalEvent t.GetName o (s.heap.getD k {})]
        ∧ (run (step s .StopFlag) [.Execute o, .Worker, .Worker]).currentToken_ = none
        ∧ (run (step s .StopFlag) [.Execute o, .Worker, .Worker]).worker_ = some .waiting)
      ∧ ((run (step s .StopFlag) [.Execute o, .Worker, .Worker, .Worker, .Worker]).worker_
          = some .exited
        ∧ (run (step s .StopFlag) [.Execute o, .Worker, .Worker, .Worker, .Worker]).emitted
          = s.emitted ++ [terminalEvent t.GetName o (s.heap.getD k {})]
        ∧ (run (step s .StopFlag) [.Execute o, .Worker, .Worker, .Worker, .Worker]).currentToken_
          = none
        ∧ (run (step s .StopFlag) [.Execute o, .Worker, .Worker, .Worker, .Worker]).taskQueue_
          = s.taskQueue_
        ∧ (run (step s .StopFlag) [.Execute o, .Worker, .Worker, .Worker, .Worker]).dequeued
          = s.dequeued)
      ∧ (run (step s .StopFlag)
          [.Execute o, .Worker, .Worker, .Worker, .Worker, .StopJoin]).worker_ = none := by
  simp [TaskScheduler.NotifyThrows, TaskScheduler.activeObservers, terminalEvent] at hn
  simp [run, step, TaskScheduler.StopFlag, TaskScheduler.WorkerExecute,
    TaskScheduler.WorkerThread, TaskScheduler.StopJoin, TaskScheduler.Notify,
    TaskScheduler.NotifyThrows, TaskScheduler.activeObservers, TaskScheduler.WriteLine,
    TaskScheduler.cout, terminalEvent, hw, hr, ht, hn]

/-- Under the invariant, when a task was in flight in a state and a later state with the
same popped tasks has no task in flight and no open `Started` event, the events of the
later state end with the pair of that task. -/
theorem last_pair_of_inv (s s2 : TaskScheduler) (t : ITask) (hI : Inv s) (hI2 : Inv s2)
    (hin : s.inFlight = [t]) (hd : s2.dequeued = s.dequeued) (h2in : s2.inFlight = [])
    (h2op : s2.openStarted = []) :
    ∃ ps kind msg, s2.emitted = pairedTrace (ps ++ [(t, kind, msg)])
      ∧ kind.isTerminal = true := by
  obtain ⟨_, ps, _, h3, _⟩ := hI
  obtain ⟨_, ps2, g2, g3, g4⟩ := hI2
  rw [hin] at h3
  rw [h2in, List.append_nil, hd, ← h3] at g3
  rw [h2op, List.append_nil] at g2
  rcases List.eq_nil_or_concat ps2 with hnil | ⟨front, p, hcon⟩
  · rw [hnil] at g3
    simp at g3
  · rw [List.concat_eq_append] at hcon
    rw [hcon, List.map_append] at g3
    have hp : [p.1] = [t] := List.append_inj_right' g3 rfl
    have hp1 : p.1 = t := by simpa using hp
    refine ⟨front, p.2.1, p.2.2, ?_, g4 p (by rw [hcon]; simp)⟩
    rw [g2, hcon, ← hp1]

/-- C21: `Stop` is requested while the worker is inside `Execute` of task `t`. The locked
block of `Stop` clears `running_` and leaves the worker where it is. From then on, in
every interleaving of steps without a new `Start`, `running_` stays false and no task is
popped or taken out of the queue; and whenever the worker is back at the head of the
loop, has left the loop or has ended, the completion event of `t` was notified, right
behind its `Started` event, and `currentToken_` was reset. When `Execute` returns and no
observer handler throws, the worker does take these steps: it notifies the completion
event, resets `currentToken_`, then sees the flag, leaves the loop with the queue as it
is, and ends, and the join of `Stop` returns. -/
theorem stop_during_execution (as0 as : List Action) (t : ITask) (k : Nat)
    (hw : (run TaskScheduler.init as0).worker_ = some (.executing t k))
    (hr : (run TaskScheduler.init as0).running_ = true)
    (ht : (run TaskScheduler.init as0).terminated = false)
    (hns : ∀ a ∈ as, a.isStart = false) :
    ((step (run TaskScheduler.init as0) .StopFlag).running_ = false
        ∧ (step (run TaskScheduler.init as0) .StopFlag).worker_ = some (.executing t k))
      ∧ ((run (step (run TaskScheduler.init as0) .StopFlag) as).running_ = false
        ∧ (run (step (run TaskScheduler.init as0) .StopFlag) as).dequeued
          = (run TaskScheduler.init as0).dequeued
        ∧ (run TaskScheduler.init as0).taskQueue_
          <+: (run (step (run TaskScheduler.init as0) .StopFlag) as).taskQueue_)
      ∧ (((run (step (run TaskScheduler.init as0) .StopFlag) as).worker_ = some .waiting
            ∨ (run (step (run TaskScheduler.init as0) .StopFlag) as).worker_ = some .leaving
            ∨ (run (step (run TaskScheduler.init as0) .StopFlag) as).worker_ = some .exited
            ∨ (run (step (run TaskScheduler.init as0) .StopFlag) as).worker_ = none) →
          (∃ ps kind msg,
            (run (step (run TaskScheduler.init as0) .StopFlag) as).emitted
                = pairedTrace (ps ++ [(t, kind, msg)])
              ∧ kind.isTerminal = true)
            ∧ (run (step (run TaskScheduler.init as0) .StopFlag) as).currentToken_ = none)
      ∧ ∀ o : ExecOutcome,
          (run TaskScheduler.init as0).NotifyThrows
              (terminalEvent t.GetName o ((run TaskScheduler.init as0).heap.getD k {})) = false →
          ((run (step (run TaskScheduler.init as0) .StopFlag)
                [.Execute o, .Worker, .Worker]).emitted
              = (run TaskScheduler.init as0).emitted
                ++ [terminalEvent t.GetName o ((run TaskScheduler.init as0).heap.getD k {})]
            ∧ (run (step (run TaskScheduler.init as0) .StopFlag)
                [.Execute o, .Worker, .Worker]).currentToken_ = none
            ∧ (run (step (run TaskScheduler.init as0) .StopFlag)
                [.Execute o, .Worker, .Worker]).worker_ = some .waiting)
          ∧ ((run (step (run TaskScheduler.init as0) .StopFlag)
                [.Execute o, .Worker, .Worker, .Worker, .Worker]).worker_ = some .exited
            ∧ (run (step (run TaskScheduler.init as0) .StopFlag)
                [.Execute o, .Worker, .Worker, .Worker, .Worker]).taskQueue_
              = (run TaskScheduler.init as0).taskQueue_
            ∧ (run (step (run TaskScheduler.init as0) .StopFlag)
                [.Execute o, .Worker, .Worker, .Worker, .Worker, .StopJoin]).worker_ = none) := by
  have hs1 : step (run TaskScheduler.init as0) .StopFlag
      = { run TaskScheduler.init as0 with running_ := false, joining := true } := by
    simp [step, ht, TaskScheduler.StopFlag, hr]
  have hr1 : (step (run TaskScheduler.init as0) .StopFlag).running_ = false := by rw [hs1]
  have hw1 : (step (run TaskScheduler.init as0) .StopFlag).worker_ = some (.executing t k) := by
    rw [hs1]
    exact hw
  have hstop := run_while_stopped as (step (run TaskScheduler.init as0) .StopFlag) hr1 hns
  have hd1 : (step (run TaskScheduler.init as0) .StopFlag).dequeued
      = (run TaskScheduler.init as0).dequeued := by rw [hs1]
  have hq1 : (step (run TaskScheduler.init as0) .StopFlag).taskQueue_
      = (run TaskScheduler.init as0).taskQueue_ := by rw [hs1]
  have hI : Inv (run TaskScheduler.init as0) := inv_run _ _ inv_init
  have hI2 : Inv (run (step (run TaskScheduler.init as0) .StopFlag) as) :=
    inv_run _ _ (inv_step _ _ hI)
  have hT2 : TokInv (run (step (run TaskScheduler.init as0) .StopFlag) as) :=
    tokInv_run _ _ (tokInv_step _ _ (tokInv_run _ _ ⟨rfl, fun k hk => by
      simp [TaskScheduler.init] at hk⟩))
  refine ⟨⟨hr1, hw1⟩, ⟨hstop.1, hstop.2.1.trans hd1, hq1 ▸ hstop.2.2⟩, fun hpc => ?_,
    fun o hn => ?_⟩
  · have hin : (run TaskScheduler.init as0).inFlight = [t] := by
      simp [TaskScheduler.inFlight, hw, WorkerPc.inFlight]
    have h2 : (run (step (run TaskScheduler.init as0) .StopFlag) as).inFlight = []
        ∧ (run (step (run TaskScheduler.init as0) .StopFlag) as).openStarted = []
        ∧ (run (step (run TaskScheduler.init as0) .StopFlag) as).workerToken = none := by
      rcases hpc with h | h | h | h <;>
        simp [TaskScheduler.inFlight, TaskScheduler.openStarted, TaskScheduler.workerToken, h,
          WorkerPc.inFlight, WorkerPc.openStarted, WorkerPc.tokenOf]
    exact ⟨last_pair_of_inv _ _ t hI hI2 hin (hstop.2.1.trans hd1) h2.1 h2.2.1,
      hT2.1.trans h2.2.2⟩
  · have hp := stop_progress (run TaskScheduler.init as0) t k o hw hr ht hn
    exact ⟨hp.2.1, hp.2.2.1.1, hp.2.2.1.2.2.2.1, hp.2.2.2⟩

/-- C21 at a scheduler that executes task A with task B queued when `Stop` is requested:
the worker notifies the completion of A, resets the token and ends; B is not popped. -/
theorem stop_during_execution_witness :
    (run TaskScheduler.init
        [.Start none, .Worker, .Submit (some ⟨1, "A"⟩), .Push 0, .Submit (some ⟨2, "B"⟩),
          .Push 0, .Worker, .Worker, .Worker]).worker_ = some (.executing ⟨1, "A"⟩ 0)
      ∧ (run (step (run TaskScheduler.init
          [.Start none, .Worker, .Submit (some ⟨1, "A"⟩), .Push 0, .Submit (some ⟨2, "B"⟩),
            .Push 0, .Worker, .Worker, .Worker]) .StopFlag)
          [.Execute (.returned "done"), .Worker, .Worker, .Worker, .Worker]).dequeued
        = [⟨1, "A"⟩]
      ∧ (run (step (run TaskScheduler.init
          [.Start none, .Worker, .Submit (some ⟨1, "A"⟩), .Push 0, .Submit (some ⟨2, "B"⟩),
            .Push 0, .Worker, .Worker, .Worker]) .StopFlag)
          [.Execute (.returned "done"), .Worker, .Worker]).emitted
        = [⟨.Started, "A", ""⟩, ⟨.Succeeded, "A", "done"⟩]
      ∧ (run (step (run TaskScheduler.init
          [.Start none, .Worker, .Submit (some ⟨1, "A"⟩), .Push 0, .Submit (some ⟨2, "B"⟩),
            .Push 0, .Worker, .Worker, .Worker]) .StopFlag)
          [.Execute (.returned "done"), .Worker, .Worker, .Worker, .Worker]).taskQueue_
        = [⟨2, "B"⟩] :=
  ⟨by decide,
    (stop_during_execution
      [.Start none, .Worker, .Submit (some ⟨1, "A"⟩), .Push 0, .Submit (some ⟨2, "B"⟩),
        .Push 0, .Worker, .Worker, .Worker]
      [.Execute (.returned "done"), .Worker, .Worker, .Worker, .Worker] ⟨1, "A"⟩ 0
      (by decide) (by decide) (by decide) (by decide)).2.1.2.1.trans (by decide),
    ((stop_during_execution
      [.Start none, .Worker, .Submit (some ⟨1, "A"⟩), .Push 0, .Submit (some ⟨2, "B"⟩),
        .Push 0, .Worker, .Worker, .Worker]
      [] ⟨1, "A"⟩ 0 (by decide) (by decide) (by decide) (by decide)).2.2.2
        (.returned "done") (by decide)).1.1.trans (by decide),
    ((stop_during_execution
      [.Start none, .Worker, .Submit (some ⟨1, "A"⟩), .Push 0, .Submit (some ⟨2, "B"⟩),
        .Push 0, .Worker, .Worker, .Worker]
      [] ⟨1, "A"⟩ 0 (by decide) (by decide) (by decide) (by decide)).2.2.2
        (.returned "done") (by decide)).2.2.1.trans (by decide)⟩

/-! ## The texts the concrete tasks return on cancellation -/

/-- When the poll loop returns an index, the poll read cancelled there, and the index is
one of the loop. -/
theorem firstCancelled_some (poll : Nat → Bool) (n i j : Nat)
    (h : firstCancelled poll n i = some j) : i ≤ j ∧ j < i + n ∧ poll j = true := by
  induction n generalizing i with
  | zero => simp [firstCancelled] at h
  | succ n ih =>
    unfold firstCancelled at h
    split_ifs at h with hp
    · have hij : i = j := by simpa using h
      subst hij
      exact ⟨le_refl _, by omega, hp⟩
    · obtain ⟨h1, h2, h3⟩ := ih (i + 1) h
      exact ⟨by omega, by omega, h3⟩

/-- When the poll loop returns no index, no poll of the loop read cancelled. -/
theorem firstCancelled_none (poll : Nat → Bool) (n i : Nat)
    (h : firstCancelled poll n i = none) : ∀ j, i ≤ j → j < i + n → poll j = false := by
  induction n generalizing i with
  | zero => intro j h1 h2; omega
  | succ n ih =>
    unfold firstCancelled at h
    split_ifs at h with hp
    intro j h1 h2
    rcases Nat.eq_or_lt_of_le h1 with heq | hlt
    · subst heq
      simpa using hp
    · exact ih (i + 1) h j hlt (by omega)

/-- A text that starts with a text containing the pattern contains the pattern. -/
theorem occurs_in_append_left (pat a b : String) (h : pat.data <:+: a.data) :
    pat.data <:+: (a ++ b).data := by
  rw [String.data_append]
  exact h.trans (List.infix_append' [] a.data b.data)

/-- Whenever `FileBackupTask::Execute` returns from a poll that read cancelled, the text
contains "cancelled". -/
theorem FileBackupTask_cancel_text (poll : Nat → Bool) (io : Except String String)
    (i : Nat) (h : firstCancelled poll 5 0 = some i) :
    "cancelled".data <:+: (FileBackupTask.Execute poll io).data := by
  unfold FileBackupTask.Execute
  rw [h]
  exact occurs_in_append_left _ _ _ ((find_ne_none_iff _ _).mp (by decide))

/-- Whenever `HttpGetZenTask::Execute` returns from a poll that read cancelled, the text
contains "cancelled". -/
theorem HttpGetZenTask_cancel_text (outFile : String) (poll : Nat → Bool)
    (io : Except String String) (i : Nat) (h : firstCancelled poll 3 0 = some i) :
    "cancelled".data <:+: (HttpGetZenTask.Execute outFile poll io).data := by
  unfold HttpGetZenTask.Execute
  rw [h]
  show "cancelled".data <:+: ("HTTP request cancelled" : String).data
  exact (find_ne_none_iff _ _).mp (by decide)

/-- The row loop of `MatrixMultiplyTask::Execute` returns the text of the complete
product or a text that contains "cancelled". -/
theorem MatrixMultiplyTask_rows_text (poll : MatrixPoll → Bool) (done : String) (n i : Nat) :
    MatrixMultiplyTask.rows poll done n i = done
      ∨ "cancelled".data <:+: (MatrixMultiplyTask.rows poll done n i).data := by
  induction n generalizing i with
  | zero => exact Or.inl rfl
  | succ n ih =>
    unfold MatrixMultiplyTask.rows
    split_ifs
    · exact Or.inr ((find_ne_none_iff _ _).mp (by decide))
    · exact Or.inr (occurs_in_append_left _ _ _ ((find_ne_none_iff _ _).mp (by decide)))
    · exact ih (i + 1)

/-- The function `MatrixMultiplyTask::Execute` returns the text of the complete product,
all polls of the first loop having read not cancelled, or a text that contains
"cancelled". -/
theorem MatrixMultiplyTask_cancel_text (poll : MatrixPoll → Bool) (done : String) :
    MatrixMultiplyTask.Execute poll done = done
      ∨ "cancelled".data <:+: (MatrixMultiplyTask.Execute poll done).data := by
  unfold MatrixMultiplyTask.Execute
  split
  · exact Or.inr ((find_ne_none_iff _ _).mp (by decide))
  · exact MatrixMultiplyTask_rows_text poll done 100 0

/-- Every text returned from inside the first loop of `RandomStatsTask::Execute` contains
"cancelled". -/
theorem RandomStatsTask_draw_text (poll : RandomStatsPoll → Bool) (n i : Nat) (text : String)
    (h : RandomStatsTask.draw poll n i = some text) : "cancelled".data <:+: text.data := by
  induction n generalizing i with
  | zero => simp [RandomStatsTask.draw] at h
  | succ n ih =>
    unfold RandomStatsTask.draw at h
    split_ifs at h
    · have ht : "Random stats calculation cancelled" = text := by simpa using h
      rw [← ht]
      exact (find_ne_none_iff _ _).mp (by decide)
    · have ht : "Random stats calculation cancelled at iteration " ++ toString i = text := by
        simpa using h
      rw [← ht]
      exact occurs_in_append_left _ _ _ ((find_ne_none_iff _ _).mp (by decide))
    · exact ih (i + 1) h

/-- The function `RandomStatsTask::Execute` returns the text of the complete statistics
or a text that contains "cancelled". -/
theorem RandomStatsTask_cancel_text (poll : RandomStatsPoll → Bool) (done : String) :
    RandomStatsTask.Execute poll done = done
      ∨ "cancelled".data <:+: (RandomStatsTask.Execute poll done).data := by
  unfold RandomStatsTask.Execute
  split
  · next text h => exact Or.inr (RandomStatsTask_draw_text poll 500 0 text h)
  · split
    · exact Or.inr ((find_ne_none_iff _ _).mp (by decide))
    · exact Or.inl rfl

/-- Whenever `SimpleTestTask::Execute` returns from a poll that read cancelled, the text
is "Cancelled at step" with the index of the step, and does not contain "cancelled". -/
theorem SimpleTestTask_cancel_text (name_ : String) (poll : Nat → Bool) (ms i : Nat)
    (h : firstCancelled poll 5 0 = some i) :
    SimpleTestTask.Execute name_ poll ms = "Cancelled at step " ++ toString i
      ∧ ¬ "cancelled".data <:+: (SimpleTestTask.Execute name_ poll ms).data := by
  have hi := (firstCancelled_some poll 5 0 i h).2.1
  have he : SimpleTestTask.Execute name_ poll ms = "Cancelled at step " ++ toString i := by
    unfold SimpleTestTask.Execute
    rw [h]
  refine ⟨he, ?_⟩
  rw [he, ← find_ne_none_eq_false_iff]
  have hall : ∀ j, j < 0 + 5 →
      (find ("Cancelled at step " ++ toString j) "cancelled" != none) = false := by decide
  exact hall i hi

/-- Whenever `TestTask::Execute` returns from a poll that read cancelled, the text is
"Cancelled at step" with the index of the step, and does not contain "cancelled". -/
theorem TestTask_cancel_text (poll : Nat → Bool) (ms i : Nat)
    (h : firstCancelled poll 10 0 = some i) :
    TestTask.Execute poll ms = "Cancelled at step " ++ toString i
      ∧ ¬ "cancelled".data <:+: (TestTask.Execute poll ms).data := by
  have hi := (firstCancelled_some poll 10 0 i h).2.1
  have he : TestTask.Execute poll ms = "Cancelled at step " ++ toString i := by
    unfold TestTask.Execute
    rw [h]
  refine ⟨he, ?_⟩
  rw [he, ← find_ne_none_eq_false_iff]
  have hall : ∀ j, j < 0 + 10 →
      (find ("Cancelled at step " ++ toString j) "cancelled" != none) = false := by decide
  exact hall i hi

/-- C25, at a failing input: the token is cancelled while `SimpleTestTask("X")`, and
likewise `TestTask`, sleeps in step 1, so that the poll of step 2 is the first to read
cancelled. Both tasks return "Cancelled at step 2", in which the marker "cancelled" of
the text rule does not occur: the text starts with a capital C. -/
theorem test_tasks_cancel_text_lacks_marker :
    SimpleTestTask.Execute "X" (fun i => decide (2 ≤ i)) 400 = "Cancelled at step 2"
      ∧ TestTask.Execute (fun i => decide (2 ≤ i)) 200 = "Cancelled at step 2"
      ∧ find "Cancelled at step 2" "cancelled" = none
      ∧ FileBackupTask.Execute (fun i => decide (2 ≤ i)) (.ok "D:/Backup/backup.txt")
        = "Backup cancelled at step 2"
      ∧ find "Backup cancelled at step 2" "cancelled" = some 7 := by
  decide

/-! ## The observer of the front end -/

/-- After `StartScheduler` has started the scheduler, the observer it registered is
destroyed, and no later step calls it. -/
theorem StartScheduler_observer_never_called (logger : LogWriter) (uiObs : Nat)
    (s : TaskScheduler) (as : List Action) :
    uiObs ∈ (StartScheduler false logger uiObs s).2.destroyed
      ∧ ∃ calls,
        (run (StartScheduler false logger uiObs s).2 as).delivered
            = (StartScheduler false logger uiObs s).2.delivered ++ calls
          ∧ ∀ p ∈ calls, p.1 ≠ uiObs := by
  have hd : uiObs ∈ (StartScheduler false logger uiObs s).2.destroyed := by
    simp [StartScheduler, TaskScheduler.observerDestroyed]
  exact ⟨hd, run_calls_avoid_destroyed as _ uiObs hd⟩

/-- C26, at a failing input: `StartScheduler` is called on the scheduler as constructed
and creates its observer at address 7; afterwards task A is submitted and processed.
When `StartScheduler` has returned, the observer is registered and destroyed. The worker
notifies `Started` and `Succeeded` for A, the first `Notify` erases the registration, and
no handler is called: the observer receives neither event. -/
theorem ui_observer_receives_nothing :
    ((StartScheduler false ⟨1⟩ 7 TaskScheduler.init).2.observers_.map ITaskObserver.addr) = [7]
      ∧ (StartScheduler false ⟨1⟩ 7 TaskScheduler.init).2.destroyed = [7]
      ∧ (run (StartScheduler false ⟨1⟩ 7 TaskScheduler.init).2
          [.Worker, .Submit (some ⟨1, "A"⟩), .Push 0, .Worker, .Worker, .Worker,
            .Execute (.returned "done"), .Worker, .Worker]).emitted
        = [⟨.Started, "A", ""⟩, ⟨.Succeeded, "A", "done"⟩]
      ∧ (run (StartScheduler false ⟨1⟩ 7 TaskScheduler.init).2
          [.Worker, .Submit (some ⟨1, "A"⟩), .Push 0, .Worker, .Worker, .Worker,
            .Execute (.returned "done"), .Worker, .Worker]).delivered = []
      ∧ ((run (StartScheduler false ⟨1⟩ 7 TaskScheduler.init).2
          [.Worker, .Submit (some ⟨1, "A"⟩), .Push 0, .Worker, .Worker,
            .Worker]).observers_.map ITaskObserver.addr) = [] := by
  decide

/-! ## The worker loop: every popped task gets its pair of events -/

/-- From a worker inside `Execute`, when `Execute` returns and the handlers of the live
observers return normally: the worker notifies the completion event the classifier gives
for what `Execute` did and for the token as it reads then, and goes on to reset
`currentToken_` and to wait for the next task. -/
theorem execute_progress (s : TaskScheduler) (t : ITask) (k : Nat) (o : ExecOutcome)
    (hw : s.worker_ = some (.executing t k)) (ht : s.terminated = false)
    (hn : ∀ e, s.NotifyThrows e = false) :
    (step s (.Execute o)).emitted = s.emitted
      ∧ (∃ r c, (step s (.Execute o)).worker_ = some (.classified t k r c))
      ∧ (run s [.Execute o, .Worker]).emitted
        = s.emitted ++ [terminalEvent t.GetName o (s.heap.getD k {})]
      ∧ (run s [.Execute o, .Worker]).worker_ = some (.notified t k)
      ∧ (run s [.Execute o, .Worker]).terminated = false
      ∧ (run s [.Execute o, .Worker, .Worker]).worker_ = some .waiting
      ∧ (run s [.Execute o, .Worker, .Worker]).currentToken_ = none := by
  simp [TaskScheduler.NotifyThrows, TaskScheduler.activeObservers] at hn
  simp [run, step, TaskScheduler.WorkerExecute, TaskScheduler.WorkerThread,
    TaskScheduler.Notify, TaskScheduler.NotifyThrows, TaskScheduler.activeObservers,
    TaskScheduler.WriteLine, TaskScheduler.cout, terminalEvent, hw, ht, hn]

/-- One whole iteration of the loop, from a waiting worker of a running scheduler with
task `t` at the head of the queue, the handlers of the live observers returning
normally: the worker pops `t`, creates its token, notifies `Started`, calls `Execute`,
notifies the completion event right behind the `Started` event, resets `currentToken_`
and waits again. -/
theorem iteration_progress (s : TaskScheduler) (t : ITask) (rest : List ITask)
    (o : ExecOutcome) (hw : s.worker_ = some .waiting) (hr : s.running_ = true)
    (ht : s.terminated = false) (hq : s.taskQueue_ = t :: rest)
    (hn : ∀ e, s.NotifyThrows e = false) :
    (run s [.Worker, .Worker, .Worker, .Execute o, .Worker, .Worker]).emitted
        = s.emitted ++ [⟨.Started, t.GetName, ""⟩, terminalEvent t.GetName o {}]
      ∧ (run s [.Worker, .Worker, .Worker, .Execute o, .Worker, .Worker]).worker_
        = some .waiting
      ∧ (run s [.Worker, .Worker, .Worker, .Execute o, .Worker, .Worker]).dequeued
        = s.dequeued ++ [t]
      ∧ (run s [.Worker, .Worker, .Worker, .Execute o, .Worker, .Worker]).taskQueue_ = rest
      ∧ (run s [.Worker, .Worker, .Worker, .Execute o, .Worker, .Worker]).currentToken_
        = none := by
  simp [TaskScheduler.NotifyThrows, TaskScheduler.activeObservers] at hn
  simp [run, step, TaskScheduler.WorkerExecute, TaskScheduler.WorkerThread,
    TaskScheduler.Notify, TaskScheduler.NotifyThrows, TaskScheduler.activeObservers,
    TaskScheduler.WriteLine, TaskScheduler.cout, terminalEvent, hw, hr, ht, hq, hn]

/-- C2: after every interleaving of steps, the events notified so far are one adjacent
pair per task whose completion was notified, in the order the tasks were popped: a
`Started` event with the task name and an empty message, directly followed by one event
with the same task name of kind `Succeeded`, `Failed` or `Cancelled`. After the pairs
comes at most the `Started` event of the task in execution. And that pair is completed:
with handlers of the live observers that return normally, once `Execute` has returned
the worker notifies the completion event given by the classifier as its next step, and
one whole iteration of the loop on the task at the head of the queue appends exactly the
pair of that task, pops that task alone and leaves the worker waiting again. -/
theorem emitted_trace_is_paired (as : List Action) :
    (∃ ps : List (ITask × TaskEventType × String),
      (run TaskScheduler.init as).emitted
          = pairedTrace ps ++ (run TaskScheduler.init as).openStarted
        ∧ ps.map Prod.fst ++ (run TaskScheduler.init as).inFlight
          = (run TaskScheduler.init as).dequeued
        ∧ ∀ p ∈ ps, p.2.1 = .Succeeded ∨ p.2.1 = .Failed ∨ p.2.1 = .Cancelled)
      ∧ ((run TaskScheduler.init as).terminated = false →
          (∀ obs ∈ (run TaskScheduler.init as).activeObservers,
            ∀ e, obs.OnTaskEventThrows e = false) →
          (∀ (t : ITask) (k : Nat) (o : ExecOutcome),
            (run TaskScheduler.init as).worker_ = some (.executing t k) →
            (run (run TaskScheduler.init as) [.Execute o, .Worker]).emitted
                = (run TaskScheduler.init as).emitted
                  ++ [terminalEvent t.GetName o ((run TaskScheduler.init as).heap.getD k {})]
              ∧ (run (run TaskScheduler.init as) [.Execute o, .Worker]).worker_
                = some (.notified t k)
              ∧ (run (run TaskScheduler.init as) [.Execute o, .Worker, .Worker]).worker_
                = some .waiting)
            ∧ ∀ (t : ITask) (rest : List ITask) (o : ExecOutcome),
              (run TaskScheduler.init as).worker_ = some .waiting →
              (run TaskScheduler.init as).running_ = true →
              (run TaskScheduler.init as).taskQueue_ = t :: rest →
              (run (run TaskScheduler.init as)
                  [.Worker, .Worker, .Worker, .Execute o, .Worker, .Worker]).emitted
                  = (run TaskScheduler.init as).emitted
                    ++ [⟨.Started, t.GetName, ""⟩, terminalEvent t.GetName o {}]
                ∧ (run (run TaskScheduler.init as)
                  [.Worker, .Worker, .Worker, .Execute o, .Worker, .Worker]).worker_
                  = some .waiting
                ∧ (run (run TaskScheduler.init as)
                  [.Worker, .Worker, .Worker, .Execute o, .Worker, .Worker]).dequeued
                  = (run TaskScheduler.init as).dequeued ++ [t]
                ∧ (run (run TaskScheduler.init as)
                  [.Worker, .Worker, .Worker, .Execute o, .Worker, .Worker]).taskQueue_
                  = rest) := by
  constructor
  · obtain ⟨_, ps, h2, h3, h4⟩ := inv_run as TaskScheduler.init inv_init
    refine ⟨ps, h2, h3, fun p hp => ?_⟩
    have hk := h4 p hp
    cases hp2 : p.2.1 <;> simp_all [TaskEventType.isTerminal]
  · intro ht hobs
    have hn : ∀ e, (run TaskScheduler.init as).NotifyThrows e = false := by
      intro e
      unfold TaskScheduler.NotifyThrows
      rw [callObservers_of_no_throw _ e (fun obs h => hobs obs h e)]
    constructor
    · intro t k o hw
      have hp := execute_progress _ t k o hw ht hn
      exact ⟨hp.2.2.1, hp.2.2.2.1, hp.2.2.2.2.2.1⟩
    · intro t rest o hw hr hq
      have hp := iteration_progress _ t rest o hw hr ht hq hn
      exact ⟨hp.1, hp.2.1, hp.2.2.1, hp.2.2.2.1⟩

/-- C2 at a running scheduler with one observer, whose handler returns, and task A at
the head of the queue: one iteration of the loop in which `Execute` returns
"Completed in 42ms - X" appends the pair of A. -/
theorem emitted_trace_is_paired_witness :
    (run TaskScheduler.init
        [.AddObserver ⟨1, fun _ => false⟩, .Start none, .Worker, .Submit (some ⟨1, "A"⟩),
          .Push 0]).terminated = false
      ∧ (run (run TaskScheduler.init
          [.AddObserver ⟨1, fun _ => false⟩, .Start none, .Worker, .Submit (some ⟨1, "A"⟩),
            .Push 0])
          [.Worker, .Worker, .Worker, .Execute (.returned "Completed in 42ms - X"), .Worker,
            .Worker]).emitted
        = [⟨.Started, "A", ""⟩, ⟨.Succeeded, "A", "Completed in 42ms - X"⟩]
      ∧ (run (run TaskScheduler.init
          [.AddObserver ⟨1, fun _ => false⟩, .Start none, .Worker, .Submit (some ⟨1, "A"⟩),
            .Push 0])
          [.Worker, .Worker, .Worker, .Execute (.returned "Completed in 42ms - X"), .Worker,
            .Worker]).worker_ = some .waiting :=
  ⟨rfl,
    (((emitted_trace_is_paired
        [.AddObserver ⟨1, fun _ => false⟩, .Start none, .Worker, .Submit (some ⟨1, "A"⟩),
          .Push 0]).2 rfl
      (fun obs hobs e => by
        have h1 : obs ∈ [(⟨1, fun _ => false⟩ : ITaskObserver)] := hobs
        rw [List.mem_singleton] at h1
        rw [h1])).2 ⟨1, "A"⟩ [] (.returned "Completed in 42ms - X")
        (by decide) (by decide) (by decide)).1.trans (by decide),
    (((emitted_trace_is_paired
        [.AddObserver ⟨1, fun _ => false⟩, .Start none, .Worker, .Submit (some ⟨1, "A"⟩),
          .Push 0]).2 rfl
      (fun obs hobs e => by
        have h1 : obs ∈ [(⟨1, fun _ => false⟩ : ITaskObserver)] := hobs
        rw [List.mem_singleton] at h1
        rw [h1])).2 ⟨1, "A"⟩ [] (.returned "Completed in 42ms - X")
        (by decide) (by decide) (by decide)).2.1⟩

end Project3
